import Mathlib

/-! StateForge: button gesture classifier.

A shallow embedding of `src/StateForge.h` and `src/StateForge.cpp`.

* `unsigned long` values are natural numbers below `ULONG_MOD` (32-bit on the
  Arduino targets); the unsigned difference `a - b` of the source is `usub a b`.
* The hardware reads `digitalRead(_pin)` and `millis()` are explicit arguments
  of the operations that perform them.
* A member function is a function from the instance before the call to the
  instance after the call, paired with the returned value.
-/

namespace StateForge

/-- Number of values of an `unsigned long` (32 bits wide). -/
def ULONG_MOD : Nat := 4294967296

/-- Unsigned `a - b` on `unsigned long`: the difference modulo `ULONG_MOD`. -/
def usub (a b : Nat) : Nat := (a + (ULONG_MOD - b % ULONG_MOD)) % ULONG_MOD

/-- Electrical level returned by `digitalRead`. -/
inductive PinLevel where
  | LOW
  | HIGH
  deriving DecidableEq, Repr

/-- Mode handed to `pinMode`. -/
inductive PinMode where
  | INPUT
  | INPUT_PULLUP
  deriving DecidableEq, Repr

/-- Button event types (`button_event_t`). -/
inductive button_event_t where
  | BUTTON_EVENT_NONE
  | BUTTON_EVENT_SHORT_PRESS
  | BUTTON_EVENT_LONG_PRESS
  | BUTTON_EVENT_DOUBLE_PRESS
  deriving DecidableEq, Repr

/-- Button state types (`button_state_t`). -/
inductive button_state_t where
  | BUTTON_STATE_IDLE
  | BUTTON_STATE_PRESS
  | BUTTON_STATE_RELEASE
  | BUTTON_STATE_DOUBLE_CLICK
  deriving DecidableEq, Repr

open PinLevel PinMode button_event_t button_state_t

/-- The private members of `class ButtonStateMachine`. -/
structure ButtonStateMachine where
  _pin : Nat
  _longPressTime : Nat
  _doubleClickTime : Nat
  _activeLow : Bool
  _buttonState : button_state_t
  _pressTime : Nat
  _releaseTime : Nat
  _lastEvent : button_event_t
  _lastPressed : Bool
  _eventProcessed : Bool
  deriving DecidableEq, Repr

/-- The function `checkDelay(delayMs, lastTime)` of the header; `now` is the value
read from `millis()`. Returns the result and the new value of the reference
argument `lastTime`. -/
def checkDelay (delayMs lastTime now : Nat) : Bool × Nat :=
  if usub now lastTime ≥ delayMs then (true, now) else (false, lastTime)

/-- The argument of the `pinMode(_pin, ...)` call made by `init`. -/
def init_pinMode (activeLow : Bool) : PinMode :=
  if activeLow then INPUT_PULLUP else INPUT

/-- The method `ButtonStateMachine::init`; `self` is the instance before the call. -/
def init (self : ButtonStateMachine) (pin longPressTime doubleClickTime : Nat)
    (activeLow : Bool) : ButtonStateMachine :=
  { self with
    _pin := pin
    _longPressTime := longPressTime
    _doubleClickTime := doubleClickTime
    _activeLow := activeLow
    _buttonState := BUTTON_STATE_IDLE
    _pressTime := 0
    _releaseTime := 0
    _lastEvent := BUTTON_EVENT_NONE
    _lastPressed := false
    _eventProcessed := true }

/-- The first line of `getEvent` and of `isClicked`:
`_activeLow ? (digitalRead(_pin) == LOW) : (digitalRead(_pin) == HIGH)`. -/
def currentPressed (activeLow : Bool) (level : PinLevel) : Bool :=
  if activeLow then decide (level = LOW) else decide (level = HIGH)

/-- The `switch (_buttonState)` of `getEvent`, on a call where no event is
pending; `cp` is `currentPressed` and `currentTime` is `millis()`. -/
def getEvent_switch (self : ButtonStateMachine) (cp : Bool) (currentTime : Nat) :
    ButtonStateMachine :=
  match self._buttonState with
  | BUTTON_STATE_IDLE =>
    if cp && !self._lastPressed then
      { self with _pressTime := currentTime, _buttonState := BUTTON_STATE_PRESS }
    else self
  | BUTTON_STATE_PRESS =>
    if !cp && self._lastPressed then
      let s1 := { self with _releaseTime := currentTime }
      if usub s1._releaseTime s1._pressTime ≥ s1._longPressTime then
        { s1 with _lastEvent := BUTTON_EVENT_LONG_PRESS, _eventProcessed := false,
                  _buttonState := BUTTON_STATE_IDLE }
      else
        { s1 with _buttonState := BUTTON_STATE_RELEASE }
    else if cp && decide (usub currentTime self._pressTime ≥ self._longPressTime) then
      { self with _lastEvent := BUTTON_EVENT_LONG_PRESS, _eventProcessed := false,
                  _buttonState := BUTTON_STATE_IDLE }
    else self
  | BUTTON_STATE_RELEASE =>
    if cp && !self._lastPressed then
      if usub currentTime self._releaseTime ≤ self._doubleClickTime then
        { self with _buttonState := BUTTON_STATE_DOUBLE_CLICK }
      else self
    else if usub currentTime self._releaseTime > self._doubleClickTime then
      { self with _lastEvent := BUTTON_EVENT_SHORT_PRESS, _eventProcessed := false,
                  _buttonState := BUTTON_STATE_IDLE }
    else self
  | BUTTON_STATE_DOUBLE_CLICK =>
    if !cp && self._lastPressed then
      { self with _lastEvent := BUTTON_EVENT_DOUBLE_PRESS, _eventProcessed := false,
                  _buttonState := BUTTON_STATE_IDLE }
    else self

/-- The method `ButtonStateMachine::getEvent`; `level` is the value of
`digitalRead(_pin)` and `currentTime` the value of `millis()`. -/
def getEvent (self : ButtonStateMachine) (level : PinLevel) (currentTime : Nat) :
    ButtonStateMachine × button_event_t :=
  let cp := currentPressed self._activeLow level
  if !self._eventProcessed then
    (self, self._lastEvent)
  else
    let s1 := getEvent_switch self cp currentTime
    let s2 := { s1 with _lastPressed := cp }
    if !s2._eventProcessed then (s2, s2._lastEvent)
    else (s2, BUTTON_EVENT_NONE)

/-- The method `ButtonStateMachine::getLastEvent`. -/
def getLastEvent (self : ButtonStateMachine) (level : PinLevel) (currentTime : Nat) :
    ButtonStateMachine × button_event_t :=
  let r := getEvent self level currentTime
  if r.2 ≠ BUTTON_EVENT_NONE then
    ({ r.1 with _eventProcessed := true }, r.2)
  else
    (r.1, BUTTON_EVENT_NONE)

/-- Poll `getEvent` once per sample `(level, time)`, in order; the result is the
final instance and the list of returned events. -/
def pollGetEvent (self : ButtonStateMachine) :
    List (PinLevel × Nat) → ButtonStateMachine × List button_event_t
  | [] => (self, [])
  | x :: rest =>
    let r := getEvent self x.1 x.2
    let q := pollGetEvent r.1 rest
    (q.1, r.2 :: q.2)

/-- Poll `getLastEvent` once per sample `(level, time)`, in order. -/
def pollGetLastEvent (self : ButtonStateMachine) :
    List (PinLevel × Nat) → ButtonStateMachine × List button_event_t
  | [] => (self, [])
  | x :: rest =>
    let r := getLastEvent self x.1 x.2
    let q := pollGetLastEvent r.1 rest
    (q.1, r.2 :: q.2)

/-- Call `checkDelay(delayMs, lastTime)` once per clock value, threading the
reference argument `lastTime`; the result is its final value and the returned
booleans. -/
def pollCheckDelay (delayMs lastTime : Nat) : List Nat → Nat × List Bool
  | [] => (lastTime, [])
  | now :: rest =>
    let r := checkDelay delayMs lastTime now
    let q := pollCheckDelay delayMs r.2 rest
    (q.1, r.1 :: q.2)

/-- The electrical level that `currentPressed` reads as `pressed` under the
polarity `activeLow`. -/
def levelOf (activeLow pressed : Bool) : PinLevel :=
  if activeLow = pressed then LOW else HIGH

/-- Samples taken at the clock values `ts` with the button held down. -/
def heldAt (activeLow : Bool) (ts : List Nat) : List (PinLevel × Nat) :=
  ts.map (fun t => (levelOf activeLow true, t))

/-- Samples taken at the clock values `ts` with the button released. -/
def releasedAt (activeLow : Bool) (ts : List Nat) : List (PinLevel × Nat) :=
  ts.map (fun t => (levelOf activeLow false, t))

/-- The instances the code can reach: `init` with `unsigned long` arguments on any
instance, followed by `getEvent` and `getLastEvent` calls at `unsigned long`
clock values. -/
inductive Reachable : ButtonStateMachine → Prop where
  | init (self : ButtonStateMachine) (pin longPressTime doubleClickTime : Nat)
      (activeLow : Bool) (hl : longPressTime < ULONG_MOD)
      (hd : doubleClickTime < ULONG_MOD) :
      Reachable (init self pin longPressTime doubleClickTime activeLow)
  | getEvent (s : ButtonStateMachine) (level : PinLevel) (currentTime : Nat)
      (hs : Reachable s) (ht : currentTime < ULONG_MOD) :
      Reachable (getEvent s level currentTime).1
  | getLastEvent (s : ButtonStateMachine) (level : PinLevel) (currentTime : Nat)
      (hs : Reachable s) (ht : currentTime < ULONG_MOD) :
      Reachable (getLastEvent s level currentTime).1

/-- The instance built by the constructor `ButtonStateMachine()`; `activeLow` is
the value of the member `_activeLow`, which the constructor leaves unset. -/
def ButtonStateMachine.new (activeLow : Bool) : ButtonStateMachine :=
  { _pin := 0
    _longPressTime := 1000
    _doubleClickTime := 400
    _activeLow := activeLow
    _buttonState := BUTTON_STATE_IDLE
    _pressTime := 0
    _releaseTime := 0
    _lastEvent := BUTTON_EVENT_NONE
    _lastPressed := false
    _eventProcessed := true }

/-- The double press trace of the gesture tests: press at `t0`, held at `held1`,
release at `t1`, released at `rel`, second press at `t2`, held at `held2`,
release at `t3`. -/
def doublePressTrace (activeLow : Bool) (t0 : Nat) (held1 : List Nat) (t1 : Nat)
    (rel : List Nat) (t2 : Nat) (held2 : List Nat) (t3 : Nat) : List (PinLevel × Nat) :=
  (levelOf activeLow true, t0) :: (heldAt activeLow held1 ++
    (levelOf activeLow false, t1) :: (releasedAt activeLow rel ++
      (levelOf activeLow true, t2) :: (heldAt activeLow held2 ++
        [(levelOf activeLow false, t3)])))

/-- The short press trace: press at `t0`, held at `held`, release at `t1`,
released at `rel`, released at `tx`. -/
def shortPressTrace (activeLow : Bool) (t0 : Nat) (held : List Nat) (t1 : Nat)
    (rel : List Nat) (tx : Nat) : List (PinLevel × Nat) :=
  (levelOf activeLow true, t0) :: (heldAt activeLow held ++
    (levelOf activeLow false, t1) :: (releasedAt activeLow rel ++
      [(levelOf activeLow false, tx)]))

/-- The long press trace: press at `t0`, held at `held`, release at `t1`,
released at `rel`. -/
def longPressTrace (activeLow : Bool) (t0 : Nat) (held : List Nat) (t1 : Nat)
    (rel : List Nat) : List (PinLevel × Nat) :=
  (levelOf activeLow true, t0) :: (heldAt activeLow held ++
    (levelOf activeLow false, t1) :: releasedAt activeLow rel)

/-- Whether a sequence of pressed/released readings has no press edge, `prev`
being the reading before the first one. -/
def noPressEdge (prev : Bool) : List Bool → Bool
  | [] => true
  | p :: rest => !(p && !prev) && noPressEdge p rest

/-- The function-local `static` variables of `isClicked`, which persist from
one call to the next. -/
structure isClicked_statics where
  lastState : Bool
  lastChangeTime : Nat
  deriving DecidableEq, Repr

/-- The initialisers of the statics: `lastState = false`, `lastChangeTime = 0`. -/
def isClicked_statics.initial : isClicked_statics :=
  { lastState := false, lastChangeTime := 0 }

/-- The method `ButtonStateMachine::isClicked`; `st` holds the statics before the
call, `level` is the value of `digitalRead(_pin)` and `now` the value of
`millis()`. Returns the statics after the call and the result. -/
def isClicked (self : ButtonStateMachine) (st : isClicked_statics) (level : PinLevel)
    (now : Nat) : isClicked_statics × Bool :=
  let currentState := currentPressed self._activeLow level
  if usub now st.lastChangeTime < 20 then
    (st, false)
  else if st.lastState && !currentState then
    ({ lastState := currentState, lastChangeTime := now }, true)
  else if st.lastState != currentState then
    ({ lastState := currentState, lastChangeTime := now }, false)
  else
    (st, false)

/-- The opposite electrical level. -/
def invertLevel : PinLevel → PinLevel
  | LOW => HIGH
  | HIGH => LOW

/-- The samples with every electrical level inverted. -/
def invertLevels (xs : List (PinLevel × Nat)) : List (PinLevel × Nat) :=
  xs.map (fun x => (invertLevel x.1, x.2))

/-- The value of `_buttonState` after each call when `getEvent` is polled once per
sample. -/
def pollGetEventStates (self : ButtonStateMachine) :
    List (PinLevel × Nat) → List button_state_t
  | [] => []
  | x :: rest =>
    let r := getEvent self x.1 x.2
    r.1._buttonState :: pollGetEventStates r.1 rest

/-- The facts kept by every call: a pending event is a real event stored while
the machine is back in `IDLE`, and in `PRESS` and `DOUBLE_CLICK` the last
reading is pressed. -/
def Inv (s : ButtonStateMachine) : Prop :=
  (s._eventProcessed = false →
    s._buttonState = BUTTON_STATE_IDLE ∧ s._lastEvent ≠ BUTTON_EVENT_NONE) ∧
  (s._buttonState = BUTTON_STATE_PRESS ∨ s._buttonState = BUTTON_STATE_DOUBLE_CLICK →
    s._lastPressed = true)

/-! ## Basic facts -/

theorem usub_of_le {a b : Nat} (h : b ≤ a) (ha : a < ULONG_MOD) : usub a b = a - b := by
  unfold usub ULONG_MOD at *
  omega

@[simp] theorem currentPressed_levelOf (al p : Bool) :
    currentPressed al (levelOf al p) = p := by
  cases al <;> cases p <;> rfl

theorem pollGetEvent_append (s : ButtonStateMachine) (xs ys : List (PinLevel × Nat)) :
    pollGetEvent s (xs ++ ys) =
      ((pollGetEvent (pollGetEvent s xs).1 ys).1,
        (pollGetEvent s xs).2 ++ (pollGetEvent (pollGetEvent s xs).1 ys).2) := by
  induction xs generalizing s with
  | nil => simp [pollGetEvent]
  | cons x xs ih => simp [pollGetEvent, ih]

theorem pollGetLastEvent_append (s : ButtonStateMachine) (xs ys : List (PinLevel × Nat)) :
    pollGetLastEvent s (xs ++ ys) =
      ((pollGetLastEvent (pollGetLastEvent s xs).1 ys).1,
        (pollGetLastEvent s xs).2 ++ (pollGetLastEvent (pollGetLastEvent s xs).1 ys).2) := by
  induction xs generalizing s with
  | nil => simp [pollGetLastEvent]
  | cons x xs ih => simp [pollGetLastEvent, ih]

/-- A call of `getEvent` that returns `NONE` makes `getLastEvent` do the same. -/
theorem getLastEvent_of_none {s s1 : ButtonStateMachine} {lv : PinLevel} {t : Nat}
    (h : getEvent s lv t = (s1, BUTTON_EVENT_NONE)) :
    getLastEvent s lv t = (s1, BUTTON_EVENT_NONE) := by
  simp [getLastEvent, h]

/-- Samples that each leave the instance as it is and return `NONE`. -/
theorem pollGetEvent_idle_steps (s : ButtonStateMachine) (xs : List (PinLevel × Nat))
    (h : ∀ x ∈ xs, getEvent s x.1 x.2 = (s, BUTTON_EVENT_NONE)) :
    pollGetEvent s xs = (s, List.replicate xs.length BUTTON_EVENT_NONE) := by
  induction xs with
  | nil => simp [pollGetEvent]
  | cons x xs ih =>
    have hx := h x (List.mem_cons_self _ _)
    have hr := ih (fun y hy => h y (List.mem_cons_of_mem _ hy))
    simp [pollGetEvent, hx, hr, List.replicate_succ]

theorem pollGetLastEvent_idle_steps (s : ButtonStateMachine) (xs : List (PinLevel × Nat))
    (h : ∀ x ∈ xs, getEvent s x.1 x.2 = (s, BUTTON_EVENT_NONE)) :
    pollGetLastEvent s xs = (s, List.replicate xs.length BUTTON_EVENT_NONE) := by
  induction xs with
  | nil => simp [pollGetLastEvent]
  | cons x xs ih =>
    have hx := getLastEvent_of_none (h x (List.mem_cons_self _ _))
    have hr := ih (fun y hy => h y (List.mem_cons_of_mem _ hy))
    simp [pollGetLastEvent, hx, hr, List.replicate_succ]

/-! ## Single steps of `getEvent` on an instance given field by field -/

theorem step_idle_press (pin L D : Nat) (al : Bool) (pt rt : Nat) (ev : button_event_t)
    (t : Nat) :
    getEvent ⟨pin, L, D, al, BUTTON_STATE_IDLE, pt, rt, ev, false, true⟩ (levelOf al true) t
      = (⟨pin, L, D, al, BUTTON_STATE_PRESS, t, rt, ev, true, true⟩, BUTTON_EVENT_NONE) := by
  simp [getEvent, getEvent_switch]

theorem step_idle_released (pin L D : Nat) (al : Bool) (pt rt : Nat) (ev : button_event_t)
    (lp : Bool) (t : Nat) :
    getEvent ⟨pin, L, D, al, BUTTON_STATE_IDLE, pt, rt, ev, lp, true⟩ (levelOf al false) t
      = (⟨pin, L, D, al, BUTTON_STATE_IDLE, pt, rt, ev, false, true⟩, BUTTON_EVENT_NONE) := by
  simp [getEvent, getEvent_switch]

theorem step_idle_held (pin L D : Nat) (al : Bool) (pt rt : Nat) (ev : button_event_t)
    (t : Nat) :
    getEvent ⟨pin, L, D, al, BUTTON_STATE_IDLE, pt, rt, ev, true, true⟩ (levelOf al true) t
      = (⟨pin, L, D, al, BUTTON_STATE_IDLE, pt, rt, ev, true, true⟩, BUTTON_EVENT_NONE) := by
  simp [getEvent, getEvent_switch]

theorem step_press_held_short (pin L D : Nat) (al : Bool) (pt rt : Nat)
    (ev : button_event_t) (t : Nat) (h : usub t pt < L) :
    getEvent ⟨pin, L, D, al, BUTTON_STATE_PRESS, pt, rt, ev, true, true⟩ (levelOf al true) t
      = (⟨pin, L, D, al, BUTTON_STATE_PRESS, pt, rt, ev, true, true⟩, BUTTON_EVENT_NONE) := by
  simp [getEvent, getEvent_switch, Nat.not_le.mpr h]

theorem step_press_held_long (pin L D : Nat) (al : Bool) (pt rt : Nat)
    (ev : button_event_t) (t : Nat) (h : L ≤ usub t pt) :
    getEvent ⟨pin, L, D, al, BUTTON_STATE_PRESS, pt, rt, ev, true, true⟩ (levelOf al true) t
      = (⟨pin, L, D, al, BUTTON_STATE_IDLE, pt, rt, BUTTON_EVENT_LONG_PRESS, true, false⟩,
          BUTTON_EVENT_LONG_PRESS) := by
  simp [getEvent, getEvent_switch, h]

theorem step_press_release_short (pin L D : Nat) (al : Bool) (pt rt : Nat)
    (ev : button_event_t) (t : Nat) (h : usub t pt < L) :
    getEvent ⟨pin, L, D, al, BUTTON_STATE_PRESS, pt, rt, ev, true, true⟩ (levelOf al false) t
      = (⟨pin, L, D, al, BUTTON_STATE_RELEASE, pt, t, ev, false, true⟩, BUTTON_EVENT_NONE) := by
  simp [getEvent, getEvent_switch, Nat.not_le.mpr h]

theorem step_press_release_long (pin L D : Nat) (al : Bool) (pt rt : Nat)
    (ev : button_event_t) (t : Nat) (h : L ≤ usub t pt) :
    getEvent ⟨pin, L, D, al, BUTTON_STATE_PRESS, pt, rt, ev, true, true⟩ (levelOf al false) t
      = (⟨pin, L, D, al, BUTTON_STATE_IDLE, pt, t, BUTTON_EVENT_LONG_PRESS, false, false⟩,
          BUTTON_EVENT_LONG_PRESS) := by
  simp [getEvent, getEvent_switch, h]

theorem step_release_wait (pin L D : Nat) (al : Bool) (pt rt : Nat)
    (ev : button_event_t) (t : Nat) (h : usub t rt ≤ D) :
    getEvent ⟨pin, L, D, al, BUTTON_STATE_RELEASE, pt, rt, ev, false, true⟩ (levelOf al false) t
      = (⟨pin, L, D, al, BUTTON_STATE_RELEASE, pt, rt, ev, false, true⟩, BUTTON_EVENT_NONE) := by
  simp [getEvent, getEvent_switch, Nat.not_lt.mpr h]

theorem step_release_expired (pin L D : Nat) (al : Bool) (pt rt : Nat)
    (ev : button_event_t) (t : Nat) (h : D < usub t rt) :
    getEvent ⟨pin, L, D, al, BUTTON_STATE_RELEASE, pt, rt, ev, false, true⟩ (levelOf al false) t
      = (⟨pin, L, D, al, BUTTON_STATE_IDLE, pt, rt, BUTTON_EVENT_SHORT_PRESS, false, false⟩,
          BUTTON_EVENT_SHORT_PRESS) := by
  simp [getEvent, getEvent_switch, h]

theorem step_release_press (pin L D : Nat) (al : Bool) (pt rt : Nat)
    (ev : button_event_t) (t : Nat) (h : usub t rt ≤ D) :
    getEvent ⟨pin, L, D, al, BUTTON_STATE_RELEASE, pt, rt, ev, false, true⟩ (levelOf al true) t
      = (⟨pin, L, D, al, BUTTON_STATE_DOUBLE_CLICK, pt, rt, ev, true, true⟩,
          BUTTON_EVENT_NONE) := by
  simp [getEvent, getEvent_switch, h]

theorem step_double_held (pin L D : Nat) (al : Bool) (pt rt : Nat)
    (ev : button_event_t) (t : Nat) :
    getEvent ⟨pin, L, D, al, BUTTON_STATE_DOUBLE_CLICK, pt, rt, ev, true, true⟩
        (levelOf al true) t
      = (⟨pin, L, D, al, BUTTON_STATE_DOUBLE_CLICK, pt, rt, ev, true, true⟩,
          BUTTON_EVENT_NONE) := by
  simp [getEvent, getEvent_switch]

theorem step_double_release (pin L D : Nat) (al : Bool) (pt rt : Nat)
    (ev : button_event_t) (t : Nat) :
    getEvent ⟨pin, L, D, al, BUTTON_STATE_DOUBLE_CLICK, pt, rt, ev, true, true⟩
        (levelOf al false) t
      = (⟨pin, L, D, al, BUTTON_STATE_IDLE, pt, rt, BUTTON_EVENT_DOUBLE_PRESS, false, false⟩,
          BUTTON_EVENT_DOUBLE_PRESS) := by
  simp [getEvent, getEvent_switch]

/-- While an event is pending `getEvent` returns it and changes nothing. -/
theorem getEvent_pending (s : ButtonStateMachine) (lv : PinLevel) (t : Nat)
    (h : s._eventProcessed = false) : getEvent s lv t = (s, s._lastEvent) := by
  simp [getEvent, h]

/-! ## Phases of a gesture -/

theorem mem_heldAt {al : Bool} {ts : List Nat} {x : PinLevel × Nat}
    (hx : x ∈ heldAt al ts) : ∃ t, t ∈ ts ∧ x = (levelOf al true, t) := by
  simp only [heldAt, List.mem_map] at hx
  obtain ⟨t, ht, rfl⟩ := hx
  exact ⟨t, ht, rfl⟩

theorem mem_releasedAt {al : Bool} {ts : List Nat} {x : PinLevel × Nat}
    (hx : x ∈ releasedAt al ts) : ∃ t, t ∈ ts ∧ x = (levelOf al false, t) := by
  simp only [releasedAt, List.mem_map] at hx
  obtain ⟨t, ht, rfl⟩ := hx
  exact ⟨t, ht, rfl⟩

@[simp] theorem length_heldAt (al : Bool) (ts : List Nat) :
    (heldAt al ts).length = ts.length := by
  simp [heldAt]

@[simp] theorem length_releasedAt (al : Bool) (ts : List Nat) :
    (releasedAt al ts).length = ts.length := by
  simp [releasedAt]

/-- Held samples before the long press threshold leave a `PRESS` instance alone. -/
theorem press_held_steps (pin L D : Nat) (al : Bool) (pt rt : Nat) (ev : button_event_t)
    (ts : List Nat) (h : ∀ t ∈ ts, usub t pt < L) :
    ∀ x ∈ heldAt al ts,
      getEvent ⟨pin, L, D, al, BUTTON_STATE_PRESS, pt, rt, ev, true, true⟩ x.1 x.2
        = (⟨pin, L, D, al, BUTTON_STATE_PRESS, pt, rt, ev, true, true⟩,
            BUTTON_EVENT_NONE) := by
  intro x hx
  obtain ⟨t, ht, rfl⟩ := mem_heldAt hx
  exact step_press_held_short pin L D al pt rt ev t (h t ht)

/-- Released samples inside the double click window leave a `RELEASE` instance alone. -/
theorem release_wait_steps (pin L D : Nat) (al : Bool) (pt rt : Nat) (ev : button_event_t)
    (ts : List Nat) (h : ∀ t ∈ ts, usub t rt ≤ D) :
    ∀ x ∈ releasedAt al ts,
      getEvent ⟨pin, L, D, al, BUTTON_STATE_RELEASE, pt, rt, ev, false, true⟩ x.1 x.2
        = (⟨pin, L, D, al, BUTTON_STATE_RELEASE, pt, rt, ev, false, true⟩,
            BUTTON_EVENT_NONE) := by
  intro x hx
  obtain ⟨t, ht, rfl⟩ := mem_releasedAt hx
  exact step_release_wait pin L D al pt rt ev t (h t ht)

/-- Held samples leave a `DOUBLE_CLICK` instance alone, whatever their times. -/
theorem double_held_steps (pin L D : Nat) (al : Bool) (pt rt : Nat) (ev : button_event_t)
    (ts : List Nat) :
    ∀ x ∈ heldAt al ts,
      getEvent ⟨pin, L, D, al, BUTTON_STATE_DOUBLE_CLICK, pt, rt, ev, true, true⟩ x.1 x.2
        = (⟨pin, L, D, al, BUTTON_STATE_DOUBLE_CLICK, pt, rt, ev, true, true⟩,
            BUTTON_EVENT_NONE) := by
  intro x hx
  obtain ⟨t, _, rfl⟩ := mem_heldAt hx
  exact step_double_held pin L D al pt rt ev t

/-- Released samples leave an `IDLE` instance whose last reading is released alone. -/
theorem idle_released_steps (pin L D : Nat) (al : Bool) (pt rt : Nat) (ev : button_event_t)
    (ts : List Nat) :
    ∀ x ∈ releasedAt al ts,
      getEvent ⟨pin, L, D, al, BUTTON_STATE_IDLE, pt, rt, ev, false, true⟩ x.1 x.2
        = (⟨pin, L, D, al, BUTTON_STATE_IDLE, pt, rt, ev, false, true⟩,
            BUTTON_EVENT_NONE) := by
  intro x hx
  obtain ⟨t, _, rfl⟩ := mem_releasedAt hx
  exact step_idle_released pin L D al pt rt ev false t

/-- Held samples leave an `IDLE` instance whose last reading is pressed alone. -/
theorem idle_held_steps (pin L D : Nat) (al : Bool) (pt rt : Nat) (ev : button_event_t)
    (ts : List Nat) :
    ∀ x ∈ heldAt al ts,
      getEvent ⟨pin, L, D, al, BUTTON_STATE_IDLE, pt, rt, ev, true, true⟩ x.1 x.2
        = (⟨pin, L, D, al, BUTTON_STATE_IDLE, pt, rt, ev, true, true⟩,
            BUTTON_EVENT_NONE) := by
  intro x hx
  obtain ⟨t, _, rfl⟩ := mem_heldAt hx
  exact step_idle_held pin L D al pt rt ev t

/-- The whole double press trace, polled with `getEvent`, with the final instance. -/
theorem double_press_run (self : ButtonStateMachine) (pin L D : Nat) (al : Bool)
    (t0 t1 t2 t3 : Nat) (held1 rel held2 : List Nat)
    (hheld1 : ∀ t ∈ held1, usub t t0 < L) (ht1 : usub t1 t0 < L)
    (hrel : ∀ t ∈ rel, usub t t1 ≤ D) (ht2 : usub t2 t1 ≤ D) :
    pollGetEvent (init self pin L D al) (doublePressTrace al t0 held1 t1 rel t2 held2 t3)
      = (⟨pin, L, D, al, BUTTON_STATE_IDLE, t0, t1, BUTTON_EVENT_DOUBLE_PRESS, false, false⟩,
          List.replicate (held1.length + rel.length + held2.length + 3) BUTTON_EVENT_NONE
            ++ [BUTTON_EVENT_DOUBLE_PRESS]) := by
  have e1 := pollGetEvent_idle_steps _ _
    (press_held_steps pin L D al t0 0 BUTTON_EVENT_NONE held1 hheld1)
  have e2 := pollGetEvent_idle_steps _ _
    (release_wait_steps pin L D al t0 t1 BUTTON_EVENT_NONE rel hrel)
  have e3 := pollGetEvent_idle_steps _ _
    (double_held_steps pin L D al t0 t1 BUTTON_EVENT_NONE held2)
  simp only [doublePressTrace, init, pollGetEvent, pollGetEvent_append, step_idle_press,
    e1, step_press_release_short pin L D al t0 0 BUTTON_EVENT_NONE t1 ht1, e2,
    step_release_press pin L D al t0 t1 BUTTON_EVENT_NONE t2 ht2, e3, step_double_release,
    length_heldAt, length_releasedAt, List.cons_append, List.nil_append, List.append_assoc]
  refine Prod.ext rfl ?_
  show BUTTON_EVENT_NONE :: _ = _
  have h3 : held1.length + rel.length + held2.length + 3
      = 1 + (held1.length + (1 + (rel.length + (1 + held2.length)))) := by omega
  rw [h3]
  simp only [List.replicate_add, List.replicate_one, List.append_assoc, List.cons_append,
    List.nil_append, List.singleton_append]

/-- The whole short press trace, polled with `getEvent`, with the final instance. -/
theorem short_press_run (self : ButtonStateMachine) (pin L D : Nat) (al : Bool)
    (t0 t1 tx : Nat) (held rel : List Nat)
    (hheld : ∀ t ∈ held, usub t t0 < L) (ht1 : usub t1 t0 < L)
    (hrel : ∀ t ∈ rel, usub t t1 ≤ D) (htx : D < usub tx t1) :
    pollGetEvent (init self pin L D al) (shortPressTrace al t0 held t1 rel tx)
      = (⟨pin, L, D, al, BUTTON_STATE_IDLE, t0, t1, BUTTON_EVENT_SHORT_PRESS, false, false⟩,
          List.replicate (held.length + rel.length + 2) BUTTON_EVENT_NONE
            ++ [BUTTON_EVENT_SHORT_PRESS]) := by
  have e1 := pollGetEvent_idle_steps _ _
    (press_held_steps pin L D al t0 0 BUTTON_EVENT_NONE held hheld)
  have e2 := pollGetEvent_idle_steps _ _
    (release_wait_steps pin L D al t0 t1 BUTTON_EVENT_NONE rel hrel)
  simp only [shortPressTrace, init, pollGetEvent, pollGetEvent_append, step_idle_press,
    e1, step_press_release_short pin L D al t0 0 BUTTON_EVENT_NONE t1 ht1, e2,
    step_release_expired pin L D al t0 t1 BUTTON_EVENT_NONE tx htx,
    length_heldAt, length_releasedAt, List.cons_append, List.nil_append, List.append_assoc]
  refine Prod.ext rfl ?_
  show BUTTON_EVENT_NONE :: _ = _
  have h3 : held.length + rel.length + 2 = 1 + (held.length + (1 + rel.length)) := by omega
  rw [h3]
  simp only [List.replicate_add, List.replicate_one, List.append_assoc, List.cons_append,
    List.nil_append, List.singleton_append]

/-- The short press trace followed by released samples, polled with `getLastEvent`. -/
theorem short_press_run_last (self : ButtonStateMachine) (pin L D : Nat) (al : Bool)
    (t0 t1 tx : Nat) (held rel later : List Nat)
    (hheld : ∀ t ∈ held, usub t t0 < L) (ht1 : usub t1 t0 < L)
    (hrel : ∀ t ∈ rel, usub t t1 ≤ D) (htx : D < usub tx t1) :
    pollGetLastEvent (init self pin L D al)
        (shortPressTrace al t0 held t1 rel tx ++ releasedAt al later)
      = (⟨pin, L, D, al, BUTTON_STATE_IDLE, t0, t1, BUTTON_EVENT_SHORT_PRESS, false, true⟩,
          List.replicate (held.length + rel.length + 2) BUTTON_EVENT_NONE
            ++ BUTTON_EVENT_SHORT_PRESS :: List.replicate later.length BUTTON_EVENT_NONE) := by
  have e1 := pollGetLastEvent_idle_steps _ _
    (press_held_steps pin L D al t0 0 BUTTON_EVENT_NONE held hheld)
  have e2 := pollGetLastEvent_idle_steps _ _
    (release_wait_steps pin L D al t0 t1 BUTTON_EVENT_NONE rel hrel)
  have e3 := pollGetLastEvent_idle_steps _ _
    (idle_released_steps pin L D al t0 t1 BUTTON_EVENT_SHORT_PRESS later)
  have s1 := getLastEvent_of_none
    (step_idle_press pin L D al 0 0 BUTTON_EVENT_NONE t0)
  have s2 := getLastEvent_of_none
    (step_press_release_short pin L D al t0 0 BUTTON_EVENT_NONE t1 ht1)
  have s3 : getLastEvent
        ⟨pin, L, D, al, BUTTON_STATE_RELEASE, t0, t1, BUTTON_EVENT_NONE, false, true⟩
        (levelOf al false) tx
      = (⟨pin, L, D, al, BUTTON_STATE_IDLE, t0, t1, BUTTON_EVENT_SHORT_PRESS, false, true⟩,
          BUTTON_EVENT_SHORT_PRESS) := by
    simp [getLastEvent, step_release_expired pin L D al t0 t1 BUTTON_EVENT_NONE tx htx]
  rw [pollGetLastEvent_append]
  simp only [shortPressTrace, init, pollGetLastEvent, pollGetLastEvent_append, s1, e1, s2, e2,
    s3, e3, length_heldAt, length_releasedAt, List.cons_append, List.nil_append,
    List.append_assoc]
  refine Prod.ext rfl ?_
  show BUTTON_EVENT_NONE :: _ = _
  have h3 : held.length + rel.length + 2 = 1 + (held.length + (1 + rel.length)) := by omega
  rw [h3]
  simp only [List.replicate_add, List.replicate_one, List.append_assoc, List.cons_append,
    List.nil_append, List.singleton_append]

/-- Held samples polled with `getLastEvent` from `PRESS`: either none reaches the
threshold, or the first that does reports `LONG_PRESS` and the rest report `NONE`. -/
theorem press_held_last (pin L D : Nat) (al : Bool) (pt rt : Nat) (ev : button_event_t)
    (ts : List Nat) :
    pollGetLastEvent ⟨pin, L, D, al, BUTTON_STATE_PRESS, pt, rt, ev, true, true⟩ (heldAt al ts)
        = (⟨pin, L, D, al, BUTTON_STATE_PRESS, pt, rt, ev, true, true⟩,
            List.replicate ts.length BUTTON_EVENT_NONE) ∨
    ∃ n m, pollGetLastEvent ⟨pin, L, D, al, BUTTON_STATE_PRESS, pt, rt, ev, true, true⟩
          (heldAt al ts)
        = (⟨pin, L, D, al, BUTTON_STATE_IDLE, pt, rt, BUTTON_EVENT_LONG_PRESS, true, true⟩,
            List.replicate n BUTTON_EVENT_NONE
              ++ BUTTON_EVENT_LONG_PRESS :: List.replicate m BUTTON_EVENT_NONE) := by
  induction ts with
  | nil => left; rfl
  | cons t ts ih =>
    by_cases h : usub t pt < L
    · have s1 := getLastEvent_of_none (step_press_held_short pin L D al pt rt ev t h)
      rcases ih with ih | ⟨n, m, ih⟩
      · left
        simp only [heldAt, List.map_cons, pollGetLastEvent, s1] at ih ⊢
        simp [ih, List.replicate_succ]
      · right
        refine ⟨n + 1, m, ?_⟩
        simp only [heldAt, List.map_cons, pollGetLastEvent, s1] at ih ⊢
        simp [ih, List.replicate_succ]
    · right
      have s1 : getLastEvent ⟨pin, L, D, al, BUTTON_STATE_PRESS, pt, rt, ev, true, true⟩
            (levelOf al true) t
          = (⟨pin, L, D, al, BUTTON_STATE_IDLE, pt, rt, BUTTON_EVENT_LONG_PRESS, true, true⟩,
              BUTTON_EVENT_LONG_PRESS) := by
        simp [getLastEvent, step_press_held_long pin L D al pt rt ev t (Nat.le_of_not_lt h)]
      have e := pollGetLastEvent_idle_steps _ _
        (idle_held_steps pin L D al pt rt BUTTON_EVENT_LONG_PRESS ts)
      refine ⟨0, ts.length, ?_⟩
      simp only [heldAt, List.map_cons, pollGetLastEvent, s1] at e ⊢
      simp [e]

/-- The whole long press trace, polled with `getLastEvent`. -/
theorem long_press_run (self : ButtonStateMachine) (pin L D : Nat) (al : Bool)
    (t0 t1 : Nat) (held rel : List Nat) (hlong : L ≤ usub t1 t0) :
    ∃ rt n m, pollGetLastEvent (init self pin L D al) (longPressTrace al t0 held t1 rel)
      = (⟨pin, L, D, al, BUTTON_STATE_IDLE, t0, rt, BUTTON_EVENT_LONG_PRESS, false, true⟩,
          List.replicate n BUTTON_EVENT_NONE
            ++ BUTTON_EVENT_LONG_PRESS :: List.replicate m BUTTON_EVENT_NONE) := by
  have s1 := getLastEvent_of_none
    (step_idle_press pin L D al 0 0 BUTTON_EVENT_NONE t0)
  rcases press_held_last pin L D al t0 0 BUTTON_EVENT_NONE held with e1 | ⟨n, m, e1⟩
  · have s2 : getLastEvent
          ⟨pin, L, D, al, BUTTON_STATE_PRESS, t0, 0, BUTTON_EVENT_NONE, true, true⟩
          (levelOf al false) t1
        = (⟨pin, L, D, al, BUTTON_STATE_IDLE, t0, t1, BUTTON_EVENT_LONG_PRESS, false, true⟩,
            BUTTON_EVENT_LONG_PRESS) := by
      simp [getLastEvent, step_press_release_long pin L D al t0 0 BUTTON_EVENT_NONE t1 hlong]
    have e3 := pollGetLastEvent_idle_steps _ _
      (idle_released_steps pin L D al t0 t1 BUTTON_EVENT_LONG_PRESS rel)
    refine ⟨t1, held.length + 1, rel.length, ?_⟩
    simp only [longPressTrace, init, pollGetLastEvent, pollGetLastEvent_append, s1, e1, s2,
      e3, length_releasedAt]
    refine Prod.ext rfl ?_
    show BUTTON_EVENT_NONE :: _ = _
    simp [List.replicate_succ]
  · have s2 := getLastEvent_of_none
      (step_idle_released pin L D al t0 0 BUTTON_EVENT_LONG_PRESS true t1)
    have e3 := pollGetLastEvent_idle_steps _ _
      (idle_released_steps pin L D al t0 0 BUTTON_EVENT_LONG_PRESS rel)
    refine ⟨0, n + 1, m + 1 + rel.length, ?_⟩
    simp only [longPressTrace, init, pollGetLastEvent, pollGetLastEvent_append, s1, e1, s2,
      e3, length_releasedAt]
    refine Prod.ext rfl ?_
    show BUTTON_EVENT_NONE :: _ = _
    have h3 : m + 1 + rel.length = m + (1 + rel.length) := by omega
    rw [h3]
    simp [List.replicate_succ, List.replicate_add]

/-! ## Reachable instances -/

theorem inv_init (self : ButtonStateMachine) (pin L D : Nat) (al : Bool) :
    Inv (init self pin L D al) := by
  simp [Inv, init]

theorem inv_getEvent (s : ButtonStateMachine) (lv : PinLevel) (t : Nat) (h : Inv s) :
    Inv (getEvent s lv t).1 := by
  obtain ⟨pin, L, D, al, st, pt, rt, ev, lp, ep⟩ := s
  cases st <;> cases lp <;> cases ep <;> cases hcp : currentPressed al lv <;>
    simp [Inv, getEvent, getEvent_switch, hcp] at h ⊢ <;>
    first
      | assumption
      | (split_ifs <;> simp_all)

theorem inv_getLastEvent (s : ButtonStateMachine) (lv : PinLevel) (t : Nat) (h : Inv s) :
    Inv (getLastEvent s lv t).1 := by
  have h1 := inv_getEvent s lv t h
  unfold getLastEvent
  simp only []
  split_ifs
  · exact ⟨fun hc => by simp at hc, h1.2⟩
  · exact h1

theorem Reachable.inv {s : ButtonStateMachine} (h : Reachable s) : Inv s := by
  induction h with
  | init self pin L D al _ _ => exact inv_init self pin L D al
  | getEvent s lv t _ _ ih => exact inv_getEvent s lv t ih
  | getLastEvent s lv t _ _ ih => exact inv_getLastEvent s lv t ih

/-! ## Gesture traces from a freshly initialised instance -/

/-- C1 (double press). From a freshly `init`-ed instance, on every trace
press at `t0`, held samples with `t - t0 < longPressTime`, release at `t1` with
`t1 - t0 < longPressTime`, released samples with `t - t1 ≤ doubleClickTime`,
second press at `t2` with `t2 - t1 ≤ doubleClickTime` (nothing is asked of
`t2 - t0`), held samples at any times, release at `t3`, `getEvent` returns
`NONE` on every sample before `t3` and `DOUBLE_PRESS` on the sample at `t3`,
leaving the state `IDLE`; `SHORT_PRESS` is returned nowhere in the trace, and
once a `getLastEvent` call (any level, any time) has consumed the
`DOUBLE_PRESS`, every later released sample returns `NONE`. Of the
non-decreasing, non-wrapping timestamps only this is used: a sample compared
with a recorded time is not before it and is below `ULONG_MOD`. -/
theorem double_press_trace (self : ButtonStateMachine) (pin L D : Nat) (al : Bool)
    (t0 t1 t2 t3 : Nat) (held1 rel held2 : List Nat)
    (hheld1 : ∀ t ∈ held1, t0 ≤ t ∧ t < ULONG_MOD ∧ t - t0 < L)
    (ht1 : t0 ≤ t1 ∧ t1 < ULONG_MOD ∧ t1 - t0 < L)
    (hrel : ∀ t ∈ rel, t1 ≤ t ∧ t < ULONG_MOD ∧ t - t1 ≤ D)
    (ht2 : t1 ≤ t2 ∧ t2 < ULONG_MOD ∧ t2 - t1 ≤ D)
    (lv : PinLevel) (tc : Nat) (later : List Nat) :
    (pollGetEvent (init self pin L D al)
        (doublePressTrace al t0 held1 t1 rel t2 held2 t3)).2
      = List.replicate (held1.length + rel.length + held2.length + 3) BUTTON_EVENT_NONE
          ++ [BUTTON_EVENT_DOUBLE_PRESS] ∧
    (pollGetEvent (init self pin L D al)
        (doublePressTrace al t0 held1 t1 rel t2 held2 t3)).1._buttonState
      = BUTTON_STATE_IDLE ∧
    BUTTON_EVENT_SHORT_PRESS ∉ (pollGetEvent (init self pin L D al)
        (doublePressTrace al t0 held1 t1 rel t2 held2 t3)).2 ∧
    (getLastEvent (pollGetEvent (init self pin L D al)
        (doublePressTrace al t0 held1 t1 rel t2 held2 t3)).1 lv tc).2
      = BUTTON_EVENT_DOUBLE_PRESS ∧
    (pollGetEvent (getLastEvent (pollGetEvent (init self pin L D al)
        (doublePressTrace al t0 held1 t1 rel t2 held2 t3)).1 lv tc).1
        (releasedAt al later)).2
      = List.replicate later.length BUTTON_EVENT_NONE := by
  have h1 : ∀ t ∈ held1, usub t t0 < L := fun t ht => by
    rw [usub_of_le (hheld1 t ht).1 (hheld1 t ht).2.1]; exact (hheld1 t ht).2.2
  have h2 : usub t1 t0 < L := by rw [usub_of_le ht1.1 ht1.2.1]; exact ht1.2.2
  have h3 : ∀ t ∈ rel, usub t t1 ≤ D := fun t ht => by
    rw [usub_of_le (hrel t ht).1 (hrel t ht).2.1]; exact (hrel t ht).2.2
  have h4 : usub t2 t1 ≤ D := by rw [usub_of_le ht2.1 ht2.2.1]; exact ht2.2.2
  rw [double_press_run self pin L D al t0 t1 t2 t3 held1 rel held2 h1 h2 h3 h4]
  have hc : getLastEvent
        ⟨pin, L, D, al, BUTTON_STATE_IDLE, t0, t1, BUTTON_EVENT_DOUBLE_PRESS, false, false⟩
        lv tc
      = (⟨pin, L, D, al, BUTTON_STATE_IDLE, t0, t1, BUTTON_EVENT_DOUBLE_PRESS, false, true⟩,
          BUTTON_EVENT_DOUBLE_PRESS) := by
    simp [getLastEvent, getEvent]
  have hl := pollGetEvent_idle_steps _ _
    (idle_released_steps pin L D al t0 t1 BUTTON_EVENT_DOUBLE_PRESS later)
  refine ⟨rfl, rfl, ?_, ?_, ?_⟩
  · simp [List.mem_replicate]
  · rw [hc]
  · rw [hc, hl, length_releasedAt]

/-- C1, the spec's example: threshold 1000, window 400, press at 0 (held at 100),
release at 200 (released at 300), press at 500 (held at 550), release at 600. -/
theorem double_press_trace_witness :
    (∀ t ∈ [100], 0 ≤ t ∧ t < ULONG_MOD ∧ t - 0 < 1000) ∧
    (0 ≤ 200 ∧ 200 < ULONG_MOD ∧ 200 - 0 < 1000) ∧
    (∀ t ∈ [300], 200 ≤ t ∧ t < ULONG_MOD ∧ t - 200 ≤ 400) ∧
    (200 ≤ 500 ∧ 500 < ULONG_MOD ∧ 500 - 200 ≤ 400) ∧
    (pollGetEvent (init (ButtonStateMachine.new true) 2 1000 400 true)
        (doublePressTrace true 0 [100] 200 [300] 500 [550] 600)).2
      = [BUTTON_EVENT_NONE, BUTTON_EVENT_NONE, BUTTON_EVENT_NONE, BUTTON_EVENT_NONE,
          BUTTON_EVENT_NONE, BUTTON_EVENT_NONE, BUTTON_EVENT_DOUBLE_PRESS] :=
  ⟨by decide, by decide, by decide, by decide,
    (double_press_trace (ButtonStateMachine.new true) 2 1000 400 true 0 200 500 600
      [100] [300] [550] (by decide) (by decide) (by decide) (by decide) HIGH 700 [800]).1⟩

/-- C2 (short press). From a freshly `init`-ed instance, on every trace press at
`t0`, held samples with `t - t0 < longPressTime`, release at `t1` with
`t1 - t0 < longPressTime`, released samples with `t - t1 ≤ doubleClickTime`, and
a first released sample `tx` with `tx - t1 > doubleClickTime`: `getEvent` returns
`NONE` on the release sample and on every sample inside the window, and
`SHORT_PRESS` on the sample at `tx`, with the state back to `IDLE`; polled with
`getLastEvent` and continued with released samples at any times, `SHORT_PRESS`
is returned on the sample at `tx` and `NONE` on all others, hence exactly once. -/
theorem short_press_trace (self : ButtonStateMachine) (pin L D : Nat) (al : Bool)
    (t0 t1 tx : Nat) (held rel later : List Nat)
    (hheld : ∀ t ∈ held, t0 ≤ t ∧ t < ULONG_MOD ∧ t - t0 < L)
    (ht1 : t0 ≤ t1 ∧ t1 < ULONG_MOD ∧ t1 - t0 < L)
    (hrel : ∀ t ∈ rel, t1 ≤ t ∧ t < ULONG_MOD ∧ t - t1 ≤ D)
    (htx : t1 ≤ tx ∧ tx < ULONG_MOD ∧ D < tx - t1) :
    (pollGetEvent (init self pin L D al) (shortPressTrace al t0 held t1 rel tx)).2
      = List.replicate (held.length + rel.length + 2) BUTTON_EVENT_NONE
          ++ [BUTTON_EVENT_SHORT_PRESS] ∧
    (pollGetEvent (init self pin L D al)
        (shortPressTrace al t0 held t1 rel tx)).1._buttonState = BUTTON_STATE_IDLE ∧
    (pollGetLastEvent (init self pin L D al)
        (shortPressTrace al t0 held t1 rel tx ++ releasedAt al later)).2
      = List.replicate (held.length + rel.length + 2) BUTTON_EVENT_NONE
          ++ BUTTON_EVENT_SHORT_PRESS :: List.replicate later.length BUTTON_EVENT_NONE ∧
    (pollGetLastEvent (init self pin L D al)
        (shortPressTrace al t0 held t1 rel tx ++ releasedAt al later)).2.count
          BUTTON_EVENT_SHORT_PRESS = 1 := by
  have h1 : ∀ t ∈ held, usub t t0 < L := fun t ht => by
    rw [usub_of_le (hheld t ht).1 (hheld t ht).2.1]; exact (hheld t ht).2.2
  have h2 : usub t1 t0 < L := by rw [usub_of_le ht1.1 ht1.2.1]; exact ht1.2.2
  have h3 : ∀ t ∈ rel, usub t t1 ≤ D := fun t ht => by
    rw [usub_of_le (hrel t ht).1 (hrel t ht).2.1]; exact (hrel t ht).2.2
  have h4 : D < usub tx t1 := by rw [usub_of_le htx.1 htx.2.1]; exact htx.2.2
  rw [short_press_run self pin L D al t0 t1 tx held rel h1 h2 h3 h4,
    short_press_run_last self pin L D al t0 t1 tx held rel later h1 h2 h3 h4]
  refine ⟨rfl, rfl, rfl, ?_⟩
  simp [List.count_append, List.count_cons, List.count_replicate]

/-- C2, the spec's example: threshold 1000, window 400, press at 0 (held at 100),
release at 200, released samples at 600 (`NONE`) and 601 (`SHORT_PRESS`). -/
theorem short_press_trace_witness :
    (∀ t ∈ [100], 0 ≤ t ∧ t < ULONG_MOD ∧ t - 0 < 1000) ∧
    (0 ≤ 200 ∧ 200 < ULONG_MOD ∧ 200 - 0 < 1000) ∧
    (∀ t ∈ [600], 200 ≤ t ∧ t < ULONG_MOD ∧ t - 200 ≤ 400) ∧
    (200 ≤ 601 ∧ 601 < ULONG_MOD ∧ 400 < 601 - 200) ∧
    (pollGetEvent (init (ButtonStateMachine.new true) 2 1000 400 true)
        (shortPressTrace true 0 [100] 200 [600] 601)).2
      = [BUTTON_EVENT_NONE, BUTTON_EVENT_NONE, BUTTON_EVENT_NONE, BUTTON_EVENT_NONE,
          BUTTON_EVENT_SHORT_PRESS] :=
  ⟨by decide, by decide, by decide, by decide,
    (short_press_trace (ButtonStateMachine.new true) 2 1000 400 true 0 200 601
      [100] [600] [700, 1200] (by decide) (by decide) (by decide) (by decide)).1⟩

/-- C3 (long press). From a freshly `init`-ed instance polled with `getLastEvent`,
on every trace press at `t0`, held samples at any times, release at `t1` with
`t1 - t0 ≥ longPressTime`, then released samples: `LONG_PRESS` is returned
exactly once, every other returned value is `NONE`, the state is `IDLE`
afterwards, and a following pressed sample at `tn` moves the machine to `PRESS`
with `_pressTime = tn` and returns `NONE`. -/
theorem long_press_trace (self : ButtonStateMachine) (pin L D : Nat) (al : Bool)
    (t0 t1 tn : Nat) (held rel : List Nat)
    (h01 : t0 ≤ t1) (h1 : t1 < ULONG_MOD) (hlong : L ≤ t1 - t0) :
    (pollGetLastEvent (init self pin L D al) (longPressTrace al t0 held t1 rel)).2.count
        BUTTON_EVENT_LONG_PRESS = 1 ∧
    (∀ e ∈ (pollGetLastEvent (init self pin L D al) (longPressTrace al t0 held t1 rel)).2,
      e = BUTTON_EVENT_LONG_PRESS ∨ e = BUTTON_EVENT_NONE) ∧
    (pollGetLastEvent (init self pin L D al)
        (longPressTrace al t0 held t1 rel)).1._buttonState = BUTTON_STATE_IDLE ∧
    (getEvent (pollGetLastEvent (init self pin L D al) (longPressTrace al t0 held t1 rel)).1
        (levelOf al true) tn).1._buttonState = BUTTON_STATE_PRESS ∧
    (getEvent (pollGetLastEvent (init self pin L D al) (longPressTrace al t0 held t1 rel)).1
        (levelOf al true) tn).1._pressTime = tn ∧
    (getEvent (pollGetLastEvent (init self pin L D al) (longPressTrace al t0 held t1 rel)).1
        (levelOf al true) tn).2 = BUTTON_EVENT_NONE := by
  have h : L ≤ usub t1 t0 := by rw [usub_of_le h01 h1]; exact hlong
  obtain ⟨rt, n, m, e⟩ := long_press_run self pin L D al t0 t1 held rel h
  rw [e]
  refine ⟨?_, ?_, rfl, ?_, ?_, ?_⟩
  · simp [List.count_append, List.count_cons, List.count_replicate]
  · intro x hx
    simp only [List.mem_append, List.mem_cons, List.mem_replicate] at hx
    rcases hx with hx | hx | hx
    · exact Or.inr hx.2
    · exact Or.inl hx
    · exact Or.inr hx.2
  · simp only [step_idle_press]
  · simp only [step_idle_press]
  · simp only [step_idle_press]

/-- C3 at threshold 1000: press at 0, held at 500, 1000 and 1500, release at 1600,
released at 1700; the threshold is first seen on the held sample at 1000. -/
theorem long_press_trace_witness :
    0 ≤ 1600 ∧ 1600 < ULONG_MOD ∧ 1000 ≤ 1600 - 0 ∧
    (pollGetLastEvent (init (ButtonStateMachine.new true) 2 1000 400 true)
        (longPressTrace true 0 [500, 1000, 1500] 1600 [1700])).2.count
        BUTTON_EVENT_LONG_PRESS = 1 :=
  ⟨by decide, by decide, by decide,
    (long_press_trace (ButtonStateMachine.new true) 2 1000 400 true 0 1600 1800
      [500, 1000, 1500] [1700] (by decide) (by decide) (by decide)).1⟩

/-! ## Event buffering and consumption -/

/-- C4 (event buffering). While an event is pending (`_eventProcessed = false`),
any number of consecutive `getEvent` calls, at any pin levels and clock values,
each return the stored event `_lastEvent`, and the instance, the stored event
included, is left exactly as it was. -/
theorem event_buffering (s : ButtonStateMachine) (h : s._eventProcessed = false)
    (xs : List (PinLevel × Nat)) :
    pollGetEvent s xs = (s, List.replicate xs.length s._lastEvent) := by
  induction xs with
  | nil => simp [pollGetEvent]
  | cons x xs ih =>
    simp [pollGetEvent, getEvent_pending s x.1 x.2 h, ih, List.replicate_succ]

/-- C4 on a reachable instance: `LONG_PRESS` is pending after a press at 0 held
until 1000, and three further calls with changing levels all return it. -/
theorem event_buffering_witness :
    (pollGetEvent (init (ButtonStateMachine.new true) 2 1000 400 true)
        [(LOW, 0), (LOW, 1000)]).1._eventProcessed = false ∧
    pollGetEvent (pollGetEvent (init (ButtonStateMachine.new true) 2 1000 400 true)
        [(LOW, 0), (LOW, 1000)]).1 [(HIGH, 1100), (LOW, 1200), (HIGH, 5000)]
      = ((pollGetEvent (init (ButtonStateMachine.new true) 2 1000 400 true)
            [(LOW, 0), (LOW, 1000)]).1,
          [BUTTON_EVENT_LONG_PRESS, BUTTON_EVENT_LONG_PRESS, BUTTON_EVENT_LONG_PRESS]) :=
  ⟨by decide,
    event_buffering (pollGetEvent (init (ButtonStateMachine.new true) 2 1000 400 true)
        [(LOW, 0), (LOW, 1000)]).1 (by decide) [(HIGH, 1100), (LOW, 1200), (HIGH, 5000)]⟩

/-- C5 (`getLastEvent`). On every reachable instance and every input,
`getLastEvent` returns the value `getEvent` returns; a pending event is the
value returned; `NONE` is returned when nothing is pending and the sampling
step detects nothing; afterwards `_eventProcessed` is true, and every other
field is as `getEvent` leaves it. -/
theorem getLastEvent_spec (s : ButtonStateMachine) (hs : Reachable s) (lv : PinLevel)
    (t : Nat) :
    (getLastEvent s lv t).2 = (getEvent s lv t).2 ∧
    (s._eventProcessed = false → (getLastEvent s lv t).2 = s._lastEvent) ∧
    (s._eventProcessed = true → (getEvent s lv t).2 = BUTTON_EVENT_NONE →
      (getLastEvent s lv t).2 = BUTTON_EVENT_NONE) ∧
    (getLastEvent s lv t).1._eventProcessed = true ∧
    (getLastEvent s lv t).1 = { (getEvent s lv t).1 with _eventProcessed := true } := by
  have hi := hs.inv
  have hret : (getLastEvent s lv t).2 = (getEvent s lv t).2 := by
    unfold getLastEvent
    simp only [ne_eq]
    split_ifs with hn
    · exact hn.symm
    · rfl
  have hflag : (getEvent s lv t).2 = BUTTON_EVENT_NONE →
      (getEvent s lv t).1._eventProcessed = true := by
    obtain ⟨pin, L, D, al, st, pt, rt, ev, lp, ep⟩ := s
    cases ep
    · have := (hi.1 rfl).2
      simp [getEvent]
      exact this
    · simp only [getEvent, Bool.not_true, Bool.false_eq_true, if_false]
      split_ifs with hp
      · intro he
        have h2 := inv_getEvent
          ⟨pin, L, D, al, st, pt, rt, ev, lp, true⟩ lv t hi
        simp only [getEvent, Bool.not_true, Bool.false_eq_true, if_false, if_pos hp] at h2
        simp only [Bool.not_eq_true'] at hp
        exact absurd he (h2.1 hp).2
      · intro _
        simpa using hp
  refine ⟨hret, ?_, ?_, ?_, ?_⟩
  · intro hp
    rw [hret, getEvent_pending s lv t hp]
  · intro _ hn
    rw [hret, hn]
  · unfold getLastEvent
    simp only [ne_eq]
    split_ifs with hn
    · exact hflag hn
    · rfl
  · unfold getLastEvent
    simp only [ne_eq]
    split_ifs with hn
    · have hf := hflag hn
      generalize (getEvent s lv t).1 = r at hf
      cases r
      simp only at hf
      simp [hf]
    · rfl

/-- C5 on two reachable instances: consuming the pending `LONG_PRESS`, and a call
with nothing pending on the freshly initialised instance. -/
theorem getLastEvent_spec_witness :
    Reachable (getEvent (getEvent (init (ButtonStateMachine.new true) 2 1000 400 true)
      LOW 0).1 LOW 1000).1 ∧
    (getLastEvent (getEvent (getEvent (init (ButtonStateMachine.new true) 2 1000 400 true)
      LOW 0).1 LOW 1000).1 HIGH 1100).2 = BUTTON_EVENT_LONG_PRESS ∧
    (getLastEvent (getEvent (getEvent (init (ButtonStateMachine.new true) 2 1000 400 true)
      LOW 0).1 LOW 1000).1 HIGH 1100).1._eventProcessed = true :=
  have hr : Reachable (getEvent (getEvent
      (init (ButtonStateMachine.new true) 2 1000 400 true) LOW 0).1 LOW 1000).1 :=
    Reachable.getEvent _ LOW 1000
      (Reachable.getEvent _ LOW 0
        (Reachable.init (ButtonStateMachine.new true) 2 1000 400 true (by decide) (by decide))
        (by decide))
      (by decide)
  ⟨hr, ((getLastEvent_spec _ hr HIGH 1100).2.1 (by decide)).trans (by decide),
    (getLastEvent_spec _ hr HIGH 1100).2.2.2.1⟩

/-- C6 (failing input). Threshold 1000, active low. `getEvent` sees a press at 0
and the hold at 1000 and buffers `LONG_PRESS`; the button is let go, and
`getLastEvent` at 1100 reads the released pin and consumes the event. The next
gesture, a press first seen at 1200, held at 2300 and released at 2400, gets
`NONE` on every sample and the machine never leaves `IDLE`: the consuming call
returned before `_lastPressed` was updated, so the press at 1200 is no edge.
The same samples polled with `getLastEvent` throughout do report the second
long press, at 2300. -/
theorem fresh_gesture_missed :
    (pollGetEvent (init (ButtonStateMachine.new true) 2 1000 400 true)
        [(LOW, 0), (LOW, 1000)]).2 = [BUTTON_EVENT_NONE, BUTTON_EVENT_LONG_PRESS] ∧
    (getLastEvent (pollGetEvent (init (ButtonStateMachine.new true) 2 1000 400 true)
        [(LOW, 0), (LOW, 1000)]).1 HIGH 1100).2 = BUTTON_EVENT_LONG_PRESS ∧
    (getLastEvent (pollGetEvent (init (ButtonStateMachine.new true) 2 1000 400 true)
        [(LOW, 0), (LOW, 1000)]).1 HIGH 1100).1._lastPressed = true ∧
    pollGetEvent (getLastEvent (pollGetEvent
        (init (ButtonStateMachine.new true) 2 1000 400 true)
        [(LOW, 0), (LOW, 1000)]).1 HIGH 1100).1
        [(LOW, 1200), (LOW, 2300), (HIGH, 2400), (HIGH, 3000)]
      = (⟨2, 1000, 400, true, BUTTON_STATE_IDLE, 0, 0, BUTTON_EVENT_LONG_PRESS, false, true⟩,
          [BUTTON_EVENT_NONE, BUTTON_EVENT_NONE, BUTTON_EVENT_NONE, BUTTON_EVENT_NONE]) ∧
    (pollGetLastEvent (init (ButtonStateMachine.new true) 2 1000 400 true)
        [(LOW, 0), (LOW, 1000), (HIGH, 1100), (LOW, 1200), (LOW, 2300), (HIGH, 2400),
          (HIGH, 3000)]).2
      = [BUTTON_EVENT_NONE, BUTTON_EVENT_LONG_PRESS, BUTTON_EVENT_NONE, BUTTON_EVENT_NONE,
          BUTTON_EVENT_LONG_PRESS, BUTTON_EVENT_NONE, BUTTON_EVENT_NONE] := by
  decide

/-! ## Single steps -/

theorem noPressEdge_cons {p : Bool} {rest : List Bool}
    (h : noPressEdge false (p :: rest) = true) :
    p = false ∧ noPressEdge false rest = true := by
  cases p <;> simp_all [noPressEdge]

/-- C7 (no press, no event). From a freshly `init`-ed instance, on every finite
sequence of samples without a press edge, at arbitrary clock values, every
`getEvent` call returns `NONE` and the instance, its `IDLE` state included,
stays as `init` left it. -/
theorem no_press_no_event (self : ButtonStateMachine) (pin L D : Nat) (al : Bool)
    (xs : List (PinLevel × Nat))
    (h : noPressEdge false (xs.map (fun x => currentPressed al x.1)) = true) :
    pollGetEvent (init self pin L D al) xs
      = (init self pin L D al, List.replicate xs.length BUTTON_EVENT_NONE) ∧
    (pollGetEvent (init self pin L D al) xs).1._buttonState = BUTTON_STATE_IDLE := by
  have key : pollGetEvent (init self pin L D al) xs
      = (init self pin L D al, List.replicate xs.length BUTTON_EVENT_NONE) := by
    induction xs with
    | nil => simp [pollGetEvent]
    | cons x xs ih =>
      obtain ⟨hx, hrest⟩ := noPressEdge_cons (by simpa using h)
      have hstep : getEvent (init self pin L D al) x.1 x.2
          = (init self pin L D al, BUTTON_EVENT_NONE) := by
        simp [getEvent, getEvent_switch, init, hx]
      simp [pollGetEvent, hstep, ih hrest, List.replicate_succ]
  exact ⟨key, by rw [key]; rfl⟩

/-- C7 with active low polarity: three released (`HIGH`) samples at unordered
clock values. -/
theorem no_press_no_event_witness :
    noPressEdge false ([(HIGH, 5), (HIGH, 4294967295), (HIGH, 0)].map
      (fun x => currentPressed true x.1)) = true ∧
    pollGetEvent (init (ButtonStateMachine.new true) 2 1000 400 true)
        [(HIGH, 5), (HIGH, 4294967295), (HIGH, 0)]
      = (init (ButtonStateMachine.new true) 2 1000 400 true,
          [BUTTON_EVENT_NONE, BUTTON_EVENT_NONE, BUTTON_EVENT_NONE]) :=
  ⟨by decide,
    (no_press_no_event (ButtonStateMachine.new true) 2 1000 400 true
      [(HIGH, 5), (HIGH, 4294967295), (HIGH, 0)] (by decide)).1⟩

/-- C8 (long press tie-break, one step). In every reachable `PRESS` state (no
event is pending there), a `getEvent` sample with `now - _pressTime ≥
longPressTime` returns `LONG_PRESS` and sets the state to `IDLE`, whether the
pin reads pressed or released; a sample with `now - _pressTime < longPressTime`
returns `NONE` and leaves the state `PRESS` if the pin reads pressed, or moves
to `RELEASE` with `_releaseTime = now` if it reads released. The difference is
the unsigned one and the comparison is inclusive. -/
theorem long_press_tie_break (s : ButtonStateMachine) (hs : Reachable s)
    (hst : s._buttonState = BUTTON_STATE_PRESS) (lv : PinLevel) (now : Nat) :
    s._eventProcessed = true ∧
    (s._longPressTime ≤ usub now s._pressTime →
      (getEvent s lv now).2 = BUTTON_EVENT_LONG_PRESS ∧
      (getEvent s lv now).1._buttonState = BUTTON_STATE_IDLE) ∧
    (usub now s._pressTime < s._longPressTime →
      (getEvent s lv now).2 = BUTTON_EVENT_NONE ∧
      (currentPressed s._activeLow lv = true →
        (getEvent s lv now).1._buttonState = BUTTON_STATE_PRESS) ∧
      (currentPressed s._activeLow lv = false →
        (getEvent s lv now).1._buttonState = BUTTON_STATE_RELEASE ∧
        (getEvent s lv now).1._releaseTime = now)) := by
  have hi := hs.inv
  obtain ⟨pin, L, D, al, st, pt, rt, ev, lp, ep⟩ := s
  simp only at hst
  subst hst
  have hlp : lp = true := hi.2 (Or.inl rfl)
  have hep : ep = true := by
    cases ep
    · exact button_state_t.noConfusion (hi.1 rfl).1
    · rfl
  subst hlp hep
  refine ⟨rfl, ?_, ?_⟩
  · intro hge
    cases hcp : currentPressed al lv <;> simp [getEvent, getEvent_switch, hcp, hge]
  · intro hlt
    cases hcp : currentPressed al lv <;>
      simp [getEvent, getEvent_switch, hcp, Nat.not_le.mpr hlt]

/-- C8 after a press at 0 with threshold 1000: a released sample at exactly 1000
returns `LONG_PRESS`. -/
theorem long_press_tie_break_witness :
    Reachable (getEvent (init (ButtonStateMachine.new true) 2 1000 400 true) LOW 0).1 ∧
    (getEvent (init (ButtonStateMachine.new true) 2 1000 400 true) LOW 0).1._buttonState
      = BUTTON_STATE_PRESS ∧
    (getEvent (getEvent (init (ButtonStateMachine.new true) 2 1000 400 true) LOW 0).1
      HIGH 1000).2 = BUTTON_EVENT_LONG_PRESS :=
  have hr : Reachable (getEvent (init (ButtonStateMachine.new true) 2 1000 400 true)
      LOW 0).1 :=
    Reachable.getEvent _ LOW 0
      (Reachable.init (ButtonStateMachine.new true) 2 1000 400 true (by decide) (by decide))
      (by decide)
  ⟨hr, by decide,
    ((long_press_tie_break _ hr (by decide) HIGH 1000).2.1 (by decide)).1⟩

/-- C9 (no timeout while awaiting the second release). In every reachable
`DOUBLE_CLICK` state, any number of consecutive pressed samples, at any clock
values, each return `NONE` and leave the instance, its `DOUBLE_CLICK` state
included, unchanged; a released sample after them, at any clock value, returns
`DOUBLE_PRESS` and sets the state to `IDLE`. -/
theorem double_click_no_timeout (s : ButtonStateMachine) (hs : Reachable s)
    (hst : s._buttonState = BUTTON_STATE_DOUBLE_CLICK) (ts : List Nat) (tr : Nat) :
    pollGetEvent s (heldAt s._activeLow ts)
      = (s, List.replicate ts.length BUTTON_EVENT_NONE) ∧
    (pollGetEvent s (heldAt s._activeLow ts)).1._buttonState = BUTTON_STATE_DOUBLE_CLICK ∧
    (getEvent (pollGetEvent s (heldAt s._activeLow ts)).1 (levelOf s._activeLow false) tr).2
      = BUTTON_EVENT_DOUBLE_PRESS ∧
    (getEvent (pollGetEvent s (heldAt s._activeLow ts)).1
      (levelOf s._activeLow false) tr).1._buttonState = BUTTON_STATE_IDLE := by
  have hi := hs.inv
  obtain ⟨pin, L, D, al, st, pt, rt, ev, lp, ep⟩ := s
  simp only at hst
  subst hst
  have hlp : lp = true := hi.2 (Or.inr rfl)
  have hep : ep = true := by
    cases ep
    · exact button_state_t.noConfusion (hi.1 rfl).1
    · rfl
  subst hlp hep
  have e := pollGetEvent_idle_steps _ _ (double_held_steps pin L D al pt rt ev ts)
  rw [length_heldAt] at e
  simp only [e, step_double_release, and_self]

/-- C9 on the double press trace: after press 0, release 200, press 500 the state
is `DOUBLE_CLICK`; holds sampled up to 100000 return `NONE` and the release
returns `DOUBLE_PRESS`. -/
theorem double_click_no_timeout_witness :
    Reachable (getEvent (getEvent (getEvent
      (init (ButtonStateMachine.new true) 2 1000 400 true) LOW 0).1 HIGH 200).1 LOW 500).1 ∧
    (getEvent (getEvent (getEvent
      (init (ButtonStateMachine.new true) 2 1000 400 true) LOW 0).1 HIGH 200).1
        LOW 500).1._buttonState = BUTTON_STATE_DOUBLE_CLICK ∧
    (getEvent (pollGetEvent (getEvent (getEvent (getEvent
      (init (ButtonStateMachine.new true) 2 1000 400 true) LOW 0).1 HIGH 200).1 LOW 500).1
        (heldAt true [600, 2000, 100000])).1 (levelOf true false) 100001).2
      = BUTTON_EVENT_DOUBLE_PRESS :=
  have hr : Reachable (getEvent (getEvent (getEvent
      (init (ButtonStateMachine.new true) 2 1000 400 true) LOW 0).1 HIGH 200).1 LOW 500).1 :=
    Reachable.getEvent _ LOW 500
      (Reachable.getEvent _ HIGH 200
        (Reachable.getEvent _ LOW 0
          (Reachable.init (ButtonStateMachine.new true) 2 1000 400 true
            (by decide) (by decide))
          (by decide))
        (by decide))
      (by decide)
  ⟨hr, by decide,
    (double_click_no_timeout _ hr (by decide) [600, 2000, 100000] 100001).2.2.1⟩

/-! ## The elapsed-time gate -/

theorem pollCheckDelay_all_false (delayMs lastTime : Nat) (nows : List Nat)
    (h : ∀ b ∈ (pollCheckDelay delayMs lastTime nows).2, b = false) :
    (pollCheckDelay delayMs lastTime nows).1 = lastTime := by
  induction nows with
  | nil => rfl
  | cons now rest ih =>
    simp only [pollCheckDelay, List.mem_cons, forall_eq_or_imp] at h ⊢
    obtain ⟨h1, h2⟩ := h
    have hk : (checkDelay delayMs lastTime now).2 = lastTime := by
      unfold checkDelay at h1 ⊢
      by_cases hc : usub now lastTime ≥ delayMs
      · simp [hc] at h1
      · simp [hc]
    rw [hk] at h2 ⊢
    exact ih h2

/-- C10 (`checkDelay`). For every `delayMs`, stored `lastTime` and clock value
`now`, `checkDelay` returns true exactly when the unsigned difference
`now - lastTime` is at least `delayMs`; on true `lastTime` becomes `now`, on
false it is left unchanged; and over any run of calls that all return false the
stored `lastTime` is the one the run started with. -/
theorem checkDelay_spec (delayMs lastTime now : Nat) (nows : List Nat) :
    ((checkDelay delayMs lastTime now).1 = true ↔ delayMs ≤ usub now lastTime) ∧
    ((checkDelay delayMs lastTime now).1 = true →
      (checkDelay delayMs lastTime now).2 = now) ∧
    ((checkDelay delayMs lastTime now).1 = false →
      (checkDelay delayMs lastTime now).2 = lastTime) ∧
    ((∀ b ∈ (pollCheckDelay delayMs lastTime nows).2, b = false) →
      (pollCheckDelay delayMs lastTime nows).1 = lastTime) := by
  refine ⟨?_, ?_, ?_, pollCheckDelay_all_false delayMs lastTime nows⟩
  · unfold checkDelay
    split_ifs with h <;> simp [h]
  · unfold checkDelay
    split_ifs with h <;> simp
  · unfold checkDelay
    split_ifs with h <;> simp

/-- C10 at interval 200 with the baseline 100: calls at clock values 150, 250 and
299 all return false and leave the baseline at 100; a call at 300 returns
true. -/
theorem checkDelay_spec_witness :
    (∀ b ∈ (pollCheckDelay 200 100 [150, 250, 299]).2, b = false) ∧
    (pollCheckDelay 200 100 [150, 250, 299]).1 = 100 ∧
    ((checkDelay 200 100 300).1 = true ↔ 200 ≤ usub 300 100) ∧
    checkDelay 200 100 300 = (true, 300) :=
  ⟨by decide, (checkDelay_spec 200 100 300 [150, 250, 299]).2.2.2 (by decide),
    (checkDelay_spec 200 100 300 [150, 250, 299]).1, by decide⟩

/-! ## Frame and invariants of the event buffer -/

/-- C11 (failing input). Threshold 1000, active low. After `getEvent` at
`(LOW, 0)` and `(LOW, 1000)` the event `LONG_PRESS` is pending and the last
reading is pressed. The next `getEvent` call reads `HIGH`, that is released,
at 1100; after it `_lastPressed` is still true: the call returned before the
update of `_lastPressed`, so the release it observed is not recorded. -/
theorem pending_call_keeps_lastPressed :
    (pollGetEvent (init (ButtonStateMachine.new true) 2 1000 400 true)
        [(LOW, 0), (LOW, 1000)]).1._eventProcessed = false ∧
    (pollGetEvent (init (ButtonStateMachine.new true) 2 1000 400 true)
        [(LOW, 0), (LOW, 1000)]).1._lastPressed = true ∧
    currentPressed (pollGetEvent (init (ButtonStateMachine.new true) 2 1000 400 true)
        [(LOW, 0), (LOW, 1000)]).1._activeLow HIGH = false ∧
    (getEvent (pollGetEvent (init (ButtonStateMachine.new true) 2 1000 400 true)
        [(LOW, 0), (LOW, 1000)]).1 HIGH 1100).2 = BUTTON_EVENT_LONG_PRESS ∧
    (getEvent (pollGetEvent (init (ButtonStateMachine.new true) 2 1000 400 true)
        [(LOW, 0), (LOW, 1000)]).1 HIGH 1100).1._lastPressed = true := by
  decide

/-- A `getEvent` call keeps: a stored event other than `NONE` is unconsumed. -/
theorem stored_pending_getEvent (s : ButtonStateMachine) (lv : PinLevel) (t : Nat)
    (h : s._lastEvent ≠ BUTTON_EVENT_NONE → s._eventProcessed = false) :
    (getEvent s lv t).1._lastEvent ≠ BUTTON_EVENT_NONE →
      (getEvent s lv t).1._eventProcessed = false := by
  obtain ⟨pin, L, D, al, st, pt, rt, ev, lp, ep⟩ := s
  cases st <;> cases lp <;> cases ep <;> cases hcp : currentPressed al lv <;>
    simp [getEvent, getEvent_switch, hcp] at h ⊢ <;>
    first
      | assumption
      | (split_ifs <;> simp_all)

theorem stored_pending_poll (s : ButtonStateMachine) (xs : List (PinLevel × Nat))
    (h : s._lastEvent ≠ BUTTON_EVENT_NONE → s._eventProcessed = false) :
    (pollGetEvent s xs).1._lastEvent ≠ BUTTON_EVENT_NONE →
      (pollGetEvent s xs).1._eventProcessed = false := by
  induction xs generalizing s with
  | nil => exact h
  | cons x xs ih => exact ih _ (stored_pending_getEvent s x.1 x.2 h)

/-- C12 (pending/consumed invariant). In every state reached from `init` by
`getEvent` calls alone, at any levels and clock values, a stored event other
than `NONE` implies that `_eventProcessed` is false. -/
theorem stored_event_implies_pending (self : ButtonStateMachine) (pin L D : Nat)
    (al : Bool) (xs : List (PinLevel × Nat)) :
    (pollGetEvent (init self pin L D al) xs).1._lastEvent ≠ BUTTON_EVENT_NONE →
      (pollGetEvent (init self pin L D al) xs).1._eventProcessed = false :=
  stored_pending_poll (init self pin L D al) xs (fun h => absurd rfl h)

/-- C12 after a press at 0 held until 1000: `LONG_PRESS` is stored and
unconsumed. -/
theorem stored_event_implies_pending_witness :
    (pollGetEvent (init (ButtonStateMachine.new true) 2 1000 400 true)
        [(LOW, 0), (LOW, 1000), (HIGH, 1100)]).1._lastEvent ≠ BUTTON_EVENT_NONE ∧
    (pollGetEvent (init (ButtonStateMachine.new true) 2 1000 400 true)
        [(LOW, 0), (LOW, 1000), (HIGH, 1100)]).1._eventProcessed = false :=
  ⟨by decide,
    stored_event_implies_pending (ButtonStateMachine.new true) 2 1000 400 true
      [(LOW, 0), (LOW, 1000), (HIGH, 1100)] (by decide)⟩

/-- C13 (`init` fully resets). For every prior instance and every argument tuple
the instance after `init` has the four configuration members equal to the
arguments, state `IDLE`, both timestamps 0, no stored event, last reading
released and `_eventProcessed` true; so it is the same whatever the prior
instance was. -/
theorem init_resets (self other : ButtonStateMachine) (pin L D : Nat) (al : Bool) :
    init self pin L D al
      = ⟨pin, L, D, al, BUTTON_STATE_IDLE, 0, 0, BUTTON_EVENT_NONE, false, true⟩ ∧
    init self pin L D al = init other pin L D al :=
  ⟨rfl, rfl⟩

/-! ## Durations across clock rollover -/

theorem usub_across_rollover {a b : Nat} (ha : 0 < a) (hab : a + b < ULONG_MOD) :
    usub b (ULONG_MOD - a) = a + b := by
  unfold usub ULONG_MOD at *
  omega

/-- C14 (wrap-safe durations). A timestamp recorded `a` ms before the rollover of
the 32-bit clock and a sample taken `b` ms after it are `a + b` ms apart for the
unsigned difference, and every duration comparison of `getEvent` and of
`checkDelay` is made on that value: the release and the hold in `PRESS` compare
`a + b` with `longPressTime`, the second press and the expiry in `RELEASE`
compare `a + b` with `doubleClickTime` (a second press inside the window goes to
`DOUBLE_CLICK`, one outside it stays in `RELEASE`), and `checkDelay` compares it
with `delayMs`. -/
theorem wrap_safe_durations (pin L D : Nat) (al : Bool) (pt rt : Nat) (ev : button_event_t)
    (delayMs a b : Nat) (ha : 0 < a) (hab : a + b < ULONG_MOD) :
    usub b (ULONG_MOD - a) = a + b ∧
    (a + b < L →
      getEvent ⟨pin, L, D, al, BUTTON_STATE_PRESS, ULONG_MOD - a, rt, ev, true, true⟩
          (levelOf al false) b
        = (⟨pin, L, D, al, BUTTON_STATE_RELEASE, ULONG_MOD - a, b, ev, false, true⟩,
            BUTTON_EVENT_NONE) ∧
      getEvent ⟨pin, L, D, al, BUTTON_STATE_PRESS, ULONG_MOD - a, rt, ev, true, true⟩
          (levelOf al true) b
        = (⟨pin, L, D, al, BUTTON_STATE_PRESS, ULONG_MOD - a, rt, ev, true, true⟩,
            BUTTON_EVENT_NONE)) ∧
    (L ≤ a + b →
      (getEvent ⟨pin, L, D, al, BUTTON_STATE_PRESS, ULONG_MOD - a, rt, ev, true, true⟩
          (levelOf al false) b).2 = BUTTON_EVENT_LONG_PRESS ∧
      (getEvent ⟨pin, L, D, al, BUTTON_STATE_PRESS, ULONG_MOD - a, rt, ev, true, true⟩
          (levelOf al true) b).2 = BUTTON_EVENT_LONG_PRESS) ∧
    (a + b ≤ D →
      getEvent ⟨pin, L, D, al, BUTTON_STATE_RELEASE, pt, ULONG_MOD - a, ev, false, true⟩
          (levelOf al true) b
        = (⟨pin, L, D, al, BUTTON_STATE_DOUBLE_CLICK, pt, ULONG_MOD - a, ev, true, true⟩,
            BUTTON_EVENT_NONE) ∧
      getEvent ⟨pin, L, D, al, BUTTON_STATE_RELEASE, pt, ULONG_MOD - a, ev, false, true⟩
          (levelOf al false) b
        = (⟨pin, L, D, al, BUTTON_STATE_RELEASE, pt, ULONG_MOD - a, ev, false, true⟩,
            BUTTON_EVENT_NONE)) ∧
    (D < a + b →
      (getEvent ⟨pin, L, D, al, BUTTON_STATE_RELEASE, pt, ULONG_MOD - a, ev, false, true⟩
          (levelOf al false) b).2 = BUTTON_EVENT_SHORT_PRESS ∧
      getEvent ⟨pin, L, D, al, BUTTON_STATE_RELEASE, pt, ULONG_MOD - a, ev, false, true⟩
          (levelOf al true) b
        = (⟨pin, L, D, al, BUTTON_STATE_RELEASE, pt, ULONG_MOD - a, ev, true, true⟩,
            BUTTON_EVENT_NONE)) ∧
    ((checkDelay delayMs (ULONG_MOD - a) b).1 = true ↔ delayMs ≤ a + b) := by
  have hu := usub_across_rollover ha hab
  refine ⟨hu, ?_, ?_, ?_, ?_, ?_⟩
  · intro h
    exact ⟨step_press_release_short pin L D al _ rt ev b (by rw [hu]; exact h),
      step_press_held_short pin L D al _ rt ev b (by rw [hu]; exact h)⟩
  · intro h
    rw [step_press_release_long pin L D al _ rt ev b (by rw [hu]; exact h),
      step_press_held_long pin L D al _ rt ev b (by rw [hu]; exact h)]
    exact ⟨rfl, rfl⟩
  · intro h
    exact ⟨step_release_press pin L D al pt _ ev b (by rw [hu]; exact h),
      step_release_wait pin L D al pt _ ev b (by rw [hu]; exact h)⟩
  · intro h
    rw [step_release_expired pin L D al pt _ ev b (by rw [hu]; exact h)]
    refine ⟨rfl, ?_⟩
    have hd : ¬ usub b (ULONG_MOD - a) ≤ D := by rw [hu]; exact Nat.not_le.mpr h
    simp [getEvent, getEvent_switch, hd]
  · unfold checkDelay
    rw [hu]
    split_ifs with h <;> simp [h]

/-- C14, the examples: with threshold 1000 a press recorded at `2^32 - 100` and
released at clock value 50 is measured as 150 ms and goes to `RELEASE` with no
event; `checkDelay(200, 2^32 - 100)` returns false at clock value 50 and true at
clock value 100. -/
theorem wrap_safe_durations_witness :
    0 < 100 ∧ 100 + 50 < ULONG_MOD ∧
    usub 50 (ULONG_MOD - 100) = 100 + 50 ∧
    pollGetEvent (init (ButtonStateMachine.new true) 2 1000 400 true)
        [(LOW, 4294967196), (HIGH, 50)]
      = (⟨2, 1000, 400, true, BUTTON_STATE_RELEASE, 4294967196, 50, BUTTON_EVENT_NONE,
            false, true⟩, [BUTTON_EVENT_NONE, BUTTON_EVENT_NONE]) ∧
    checkDelay 200 4294967196 50 = (false, 4294967196) ∧
    checkDelay 200 4294967196 100 = (true, 100) :=
  ⟨by decide, by decide,
    (wrap_safe_durations 2 1000 400 true 0 0 BUTTON_EVENT_NONE 200 100 50
      (by decide) (by decide)).1,
    by decide, by decide, by decide⟩

/-! ## Emission and delivery -/

/-- On an instance satisfying `Inv`, `getEvent` returns an event exactly when it
leaves `_eventProcessed` false. -/
theorem getEvent_emits_iff (s : ButtonStateMachine) (hi : Inv s) (lv : PinLevel) (t : Nat) :
    (getEvent s lv t).2 ≠ BUTTON_EVENT_NONE ↔ (getEvent s lv t).1._eventProcessed = false := by
  obtain ⟨pin, L, D, al, st, pt, rt, ev, lp, ep⟩ := s
  cases st <;> cases lp <;> cases ep <;> cases hcp : currentPressed al lv <;>
    simp [Inv, getEvent, getEvent_switch, hcp] at hi ⊢ <;>
    first
      | assumption
      | (split_ifs <;> simp_all)

/-- In `IDLE` with nothing pending a `getEvent` call returns `NONE`. -/
theorem getEvent_idle_none (s : ButtonStateMachine)
    (hst : s._buttonState = BUTTON_STATE_IDLE) (hp : s._eventProcessed = true)
    (lv : PinLevel) (t : Nat) : (getEvent s lv t).2 = BUTTON_EVENT_NONE := by
  obtain ⟨pin, L, D, al, st, pt, rt, ev, lp, ep⟩ := s
  simp only at hst hp
  subst hst hp
  cases lp <;> cases hcp : currentPressed al lv <;> simp [getEvent, getEvent_switch, hcp]

/-- The value returned by `getLastEvent` is the value returned by `getEvent`. -/
theorem getLastEvent_snd (s : ButtonStateMachine) (lv : PinLevel) (t : Nat) :
    (getLastEvent s lv t).2 = (getEvent s lv t).2 := by
  by_cases hn : (getEvent s lv t).2 = BUTTON_EVENT_NONE
  · simp [getLastEvent, hn]
  · simp [getLastEvent, hn]

/-- A call of `getLastEvent` that returns an event leaves what `getEvent` leaves,
with `_eventProcessed` set. -/
theorem getLastEvent_of_event (s : ButtonStateMachine) (lv : PinLevel) (t : Nat)
    (hg : (getEvent s lv t).2 ≠ BUTTON_EVENT_NONE) :
    (getLastEvent s lv t).1 = { (getEvent s lv t).1 with _eventProcessed := true } := by
  simp [getLastEvent, hg]

/-- C15 (each event is delivered at most once through `getLastEvent`). On every
reachable instance, when a `getLastEvent` call returns an event other than
`NONE`, the call that follows it, `getEvent` or `getLastEvent`, returns `NONE`
at every pin level and every clock value. -/
theorem delivered_once (s : ButtonStateMachine) (hs : Reachable s) (lv : PinLevel) (t : Nat)
    (h : (getLastEvent s lv t).2 ≠ BUTTON_EVENT_NONE) (lv2 : PinLevel) (t2 : Nat) :
    (getEvent (getLastEvent s lv t).1 lv2 t2).2 = BUTTON_EVENT_NONE ∧
    (getLastEvent (getLastEvent s lv t).1 lv2 t2).2 = BUTTON_EVENT_NONE := by
  have hi := hs.inv
  have hg : (getEvent s lv t).2 ≠ BUTTON_EVENT_NONE := by
    rw [← getLastEvent_snd]
    exact h
  have hidle : (getEvent s lv t).1._buttonState = BUTTON_STATE_IDLE :=
    ((inv_getEvent s lv t hi).1 ((getEvent_emits_iff s hi lv t).mp hg)).1
  have hnone : (getEvent (getLastEvent s lv t).1 lv2 t2).2 = BUTTON_EVENT_NONE := by
    rw [getLastEvent_of_event s lv t hg]
    exact getEvent_idle_none { (getEvent s lv t).1 with _eventProcessed := true }
      hidle rfl lv2 t2
  refine ⟨hnone, ?_⟩
  rw [getLastEvent_snd]
  exact hnone

/-- C15 after a press at 0: `getLastEvent` at `(LOW, 1000)` returns `LONG_PRESS`,
and the next call, here at `(HIGH, 5000)`, returns `NONE`. -/
theorem delivered_once_witness :
    Reachable (getEvent (init (ButtonStateMachine.new true) 2 1000 400 true) LOW 0).1 ∧
    (getLastEvent (getEvent (init (ButtonStateMachine.new true) 2 1000 400 true) LOW 0).1
      LOW 1000).2 = BUTTON_EVENT_LONG_PRESS ∧
    (getEvent (getLastEvent (getEvent (init (ButtonStateMachine.new true) 2 1000 400 true)
      LOW 0).1 LOW 1000).1 HIGH 5000).2 = BUTTON_EVENT_NONE :=
  have hr : Reachable (getEvent (init (ButtonStateMachine.new true) 2 1000 400 true)
      LOW 0).1 :=
    Reachable.getEvent _ LOW 0
      (Reachable.init (ButtonStateMachine.new true) 2 1000 400 true (by decide) (by decide))
      (by decide)
  ⟨hr, by decide, (delivered_once _ hr LOW 1000 (by decide) HIGH 5000).1⟩

/-- C16 (pending means `IDLE` with a real event). On every reachable instance: if
`_eventProcessed` is false then the state is `IDLE` and `_lastEvent` is not
`NONE`; a `getEvent` call returns a value other than `NONE` exactly when
`_eventProcessed` is false after the call; and every call that returns an event
ends in `IDLE`. -/
theorem pending_is_idle (s : ButtonStateMachine) (hs : Reachable s) (lv : PinLevel)
    (t : Nat) :
    (s._eventProcessed = false →
      s._buttonState = BUTTON_STATE_IDLE ∧ s._lastEvent ≠ BUTTON_EVENT_NONE) ∧
    ((getEvent s lv t).2 ≠ BUTTON_EVENT_NONE ↔
      (getEvent s lv t).1._eventProcessed = false) ∧
    ((getEvent s lv t).2 ≠ BUTTON_EVENT_NONE →
      (getEvent s lv t).1._buttonState = BUTTON_STATE_IDLE) ∧
    ((getLastEvent s lv t).2 ≠ BUTTON_EVENT_NONE →
      (getLastEvent s lv t).1._buttonState = BUTTON_STATE_IDLE) := by
  have hi := hs.inv
  have hemit : (getEvent s lv t).2 ≠ BUTTON_EVENT_NONE →
      (getEvent s lv t).1._buttonState = BUTTON_STATE_IDLE := fun hg =>
    ((inv_getEvent s lv t hi).1 ((getEvent_emits_iff s hi lv t).mp hg)).1
  refine ⟨hi.1, getEvent_emits_iff s hi lv t, hemit, ?_⟩
  intro h
  have hg : (getEvent s lv t).2 ≠ BUTTON_EVENT_NONE := by
    rw [← getLastEvent_snd]
    exact h
  rw [getLastEvent_of_event s lv t hg]
  exact hemit hg

/-- C16 in the `RELEASE` state reached by press 0, release 200: the sample at 601
returns `SHORT_PRESS`, which is then pending with the machine in `IDLE`. -/
theorem pending_is_idle_witness :
    Reachable (getEvent (getEvent (init (ButtonStateMachine.new true) 2 1000 400 true)
      LOW 0).1 HIGH 200).1 ∧
    (getEvent (getEvent (getEvent (init (ButtonStateMachine.new true) 2 1000 400 true)
      LOW 0).1 HIGH 200).1 HIGH 601).2 ≠ BUTTON_EVENT_NONE ∧
    (getEvent (getEvent (getEvent (init (ButtonStateMachine.new true) 2 1000 400 true)
      LOW 0).1 HIGH 200).1 HIGH 601).1._buttonState = BUTTON_STATE_IDLE ∧
    (getEvent (getEvent (getEvent (init (ButtonStateMachine.new true) 2 1000 400 true)
      LOW 0).1 HIGH 200).1 HIGH 601).1._eventProcessed = false :=
  have hr : Reachable (getEvent (getEvent
      (init (ButtonStateMachine.new true) 2 1000 400 true) LOW 0).1 HIGH 200).1 :=
    Reachable.getEvent _ HIGH 200
      (Reachable.getEvent _ LOW 0
        (Reachable.init (ButtonStateMachine.new true) 2 1000 400 true (by decide) (by decide))
        (by decide))
      (by decide)
  ⟨hr, by decide, (pending_is_idle _ hr HIGH 601).2.2.1 (by decide),
    ((pending_is_idle _ hr HIGH 601).2.1).mp (by decide)⟩

/-! ## Late second press, and the held states -/

/-- C17 (late second press in `RELEASE`). In a reachable `RELEASE` state whose
last reading is released, a pressed sample at `now1` whose unsigned difference
`now1 - _releaseTime` exceeds `doubleClickTime` returns `NONE` and leaves the
state `RELEASE`; and when the clock is non-decreasing and has not wrapped since
the release was recorded, `_releaseTime ≤ now1 ≤ now2 < ULONG_MOD`, the next
sample, at `now2` and at any pin level, returns `SHORT_PRESS` and sets the
state to `IDLE`. -/
theorem late_second_press (s : ButtonStateMachine) (hs : Reachable s)
    (hst : s._buttonState = BUTTON_STATE_RELEASE) (hlp : s._lastPressed = false)
    (now1 now2 : Nat) (lv2 : PinLevel)
    (hlate : s._doubleClickTime < usub now1 s._releaseTime) :
    (getEvent s (levelOf s._activeLow true) now1).2 = BUTTON_EVENT_NONE ∧
    (getEvent s (levelOf s._activeLow true) now1).1._buttonState = BUTTON_STATE_RELEASE ∧
    (s._releaseTime ≤ now1 → now1 ≤ now2 → now2 < ULONG_MOD →
      (getEvent (getEvent s (levelOf s._activeLow true) now1).1 lv2 now2).2
        = BUTTON_EVENT_SHORT_PRESS ∧
      (getEvent (getEvent s (levelOf s._activeLow true) now1).1 lv2 now2).1._buttonState
        = BUTTON_STATE_IDLE) := by
  have hi := hs.inv
  obtain ⟨pin, L, D, al, st, pt, rt, ev, lp, ep⟩ := s
  simp only at hst hlp hlate ⊢
  subst hst hlp
  have hep : ep = true := by
    cases ep
    · exact button_state_t.noConfusion (hi.1 rfl).1
    · rfl
  subst hep
  have step1 : getEvent
        ⟨pin, L, D, al, BUTTON_STATE_RELEASE, pt, rt, ev, false, true⟩ (levelOf al true) now1
      = (⟨pin, L, D, al, BUTTON_STATE_RELEASE, pt, rt, ev, true, true⟩,
          BUTTON_EVENT_NONE) := by
    simp [getEvent, getEvent_switch, Nat.not_le.mpr hlate]
  refine ⟨by rw [step1], by rw [step1], ?_⟩
  intro hrt h12 h2
  have e1 : D < now1 - rt := by
    rw [usub_of_le hrt (lt_of_le_of_lt h12 h2)] at hlate; exact hlate
  have e2 : D < usub now2 rt := by
    rw [usub_of_le (le_trans hrt h12) h2]; omega
  have step2 : getEvent
        ⟨pin, L, D, al, BUTTON_STATE_RELEASE, pt, rt, ev, true, true⟩ lv2 now2
      = (⟨pin, L, D, al, BUTTON_STATE_IDLE, pt, rt, BUTTON_EVENT_SHORT_PRESS,
            currentPressed al lv2, false⟩, BUTTON_EVENT_SHORT_PRESS) := by
    simp [getEvent, getEvent_switch, e2]
  simp only [step1, step2, and_self]

/-- C17 with window 400 after press 0, release 200: the pressed sample at 700
returns `NONE` in `RELEASE`, and the sample at 710, still pressed, returns
`SHORT_PRESS`. -/
theorem late_second_press_witness :
    Reachable (getEvent (getEvent (init (ButtonStateMachine.new true) 2 1000 400 true)
      LOW 0).1 HIGH 200).1 ∧
    (getEvent (getEvent (init (ButtonStateMachine.new true) 2 1000 400 true)
      LOW 0).1 HIGH 200).1._buttonState = BUTTON_STATE_RELEASE ∧
    (getEvent (getEvent (init (ButtonStateMachine.new true) 2 1000 400 true)
      LOW 0).1 HIGH 200).1._lastPressed = false ∧
    (getEvent (getEvent (init (ButtonStateMachine.new true) 2 1000 400 true)
      LOW 0).1 HIGH 200).1._doubleClickTime
      < usub 700 (getEvent (getEvent (init (ButtonStateMachine.new true) 2 1000 400 true)
          LOW 0).1 HIGH 200).1._releaseTime ∧
    (getEvent (getEvent (getEvent (init (ButtonStateMachine.new true) 2 1000 400 true)
      LOW 0).1 HIGH 200).1 (levelOf true true) 700).2 = BUTTON_EVENT_NONE ∧
    (getEvent (getEvent (getEvent (getEvent
      (init (ButtonStateMachine.new true) 2 1000 400 true) LOW 0).1 HIGH 200).1
        (levelOf true true) 700).1 LOW 710).2 = BUTTON_EVENT_SHORT_PRESS :=
  have hr : Reachable (getEvent (getEvent
      (init (ButtonStateMachine.new true) 2 1000 400 true) LOW 0).1 HIGH 200).1 :=
    Reachable.getEvent _ HIGH 200
      (Reachable.getEvent _ LOW 0
        (Reachable.init (ButtonStateMachine.new true) 2 1000 400 true (by decide) (by decide))
        (by decide))
      (by decide)
  ⟨hr, by decide, by decide, by decide,
    (late_second_press _ hr (by decide) (by decide) 700 710 LOW (by decide)).1,
    ((late_second_press _ hr (by decide) (by decide) 700 710 LOW (by decide)).2.2
      (by decide) (by decide) (by decide)).1⟩

/-- C20 (held states keep the last reading pressed). On every reachable instance
in `PRESS` or `DOUBLE_CLICK`, `_lastPressed` is true; so the release-edge test
`!currentPressed && _lastPressed` has the value of `!currentPressed`, and a
`getEvent` call that reads the pin released leaves the machine in neither
`PRESS` nor `DOUBLE_CLICK`. -/
theorem held_states_lastPressed (s : ButtonStateMachine) (hs : Reachable s)
    (hst : s._buttonState = BUTTON_STATE_PRESS ∨ s._buttonState = BUTTON_STATE_DOUBLE_CLICK)
    (lv : PinLevel) (t : Nat) :
    s._lastPressed = true ∧
    (!currentPressed s._activeLow lv && s._lastPressed) = !currentPressed s._activeLow lv ∧
    (currentPressed s._activeLow lv = false →
      (getEvent s lv t).1._buttonState ≠ BUTTON_STATE_PRESS ∧
      (getEvent s lv t).1._buttonState ≠ BUTTON_STATE_DOUBLE_CLICK) := by
  have hi := hs.inv
  have hlp := hi.2 hst
  obtain ⟨pin, L, D, al, st, pt, rt, ev, lp, ep⟩ := s
  simp only at hst hlp
  subst hlp
  have hep : ep = true := by
    cases ep
    · have hidle : st = BUTTON_STATE_IDLE := (hi.1 rfl).1
      subst hidle
      rcases hst with h | h <;> exact button_state_t.noConfusion h
    · rfl
  subst hep
  refine ⟨rfl, by simp, ?_⟩
  intro hcp
  rcases hst with h | h <;> subst h
  · simp only [getEvent, getEvent_switch, hcp]
    by_cases hl : L ≤ usub t pt <;> simp [hl]
  · simp [getEvent, getEvent_switch, hcp]

/-- C20 in the `PRESS` state reached by a press at 0: a released sample at 200
moves the machine to `RELEASE`. -/
theorem held_states_lastPressed_witness :
    Reachable (getEvent (init (ButtonStateMachine.new true) 2 1000 400 true) LOW 0).1 ∧
    (getEvent (init (ButtonStateMachine.new true) 2 1000 400 true) LOW 0).1._buttonState
      = BUTTON_STATE_PRESS ∧
    (getEvent (init (ButtonStateMachine.new true) 2 1000 400 true) LOW 0).1._lastPressed
      = true ∧
    (getEvent (getEvent (init (ButtonStateMachine.new true) 2 1000 400 true) LOW 0).1
      HIGH 200).1._buttonState = BUTTON_STATE_RELEASE :=
  have hr : Reachable (getEvent (init (ButtonStateMachine.new true) 2 1000 400 true)
      LOW 0).1 :=
    Reachable.getEvent _ LOW 0
      (Reachable.init (ButtonStateMachine.new true) 2 1000 400 true (by decide) (by decide))
      (by decide)
  ⟨hr, by decide, (held_states_lastPressed _ hr (Or.inl (by decide)) HIGH 200).1,
    by decide⟩

/-! ## Polarity -/

theorem currentPressed_invertLevel (al : Bool) (lv : PinLevel) :
    currentPressed (!al) (invertLevel lv) = currentPressed al lv := by
  cases al <;> cases lv <;> rfl

/-- The `switch` of `getEvent` neither reads nor writes `_activeLow`. -/
theorem getEvent_switch_activeLow (s : ButtonStateMachine) (b cp : Bool) (t : Nat) :
    getEvent_switch { s with _activeLow := b } cp t
      = { getEvent_switch s cp t with _activeLow := b } := by
  obtain ⟨pin, L, D, al, st, pt, rt, ev, lp, ep⟩ := s
  cases st <;> simp only [getEvent_switch] <;> split_ifs <;> rfl

/-- A `getEvent` call keeps `_activeLow`. -/
theorem getEvent_activeLow (s : ButtonStateMachine) (lv : PinLevel) (t : Nat) :
    (getEvent s lv t).1._activeLow = s._activeLow := by
  obtain ⟨pin, L, D, al, st, pt, rt, ev, lp, ep⟩ := s
  cases st <;> cases ep <;> simp only [getEvent, getEvent_switch] <;> split_ifs <;> rfl

/-- One `getEvent` call on the instance of opposite polarity fed the inverted
level: same returned event, same instance up to `_activeLow`. -/
theorem getEvent_flip (s : ButtonStateMachine) (lv : PinLevel) (t : Nat) :
    getEvent { s with _activeLow := !s._activeLow } (invertLevel lv) t
      = ({ (getEvent s lv t).1 with _activeLow := !s._activeLow }, (getEvent s lv t).2) := by
  have hsw := getEvent_switch_activeLow s (!s._activeLow) (currentPressed s._activeLow lv) t
  obtain ⟨pin, L, D, al, st, pt, rt, ev, lp, ep⟩ := s
  simp only at hsw
  cases ep
  · simp [getEvent]
  · simp only [getEvent, currentPressed_invertLevel, hsw]
    simp only [Bool.not_true, Bool.false_eq_true, if_false]
    split_ifs <;> rfl

theorem pollGetEvent_flip (s : ButtonStateMachine) (xs : List (PinLevel × Nat)) :
    pollGetEvent { s with _activeLow := !s._activeLow } (invertLevels xs)
        = ({ (pollGetEvent s xs).1 with _activeLow := !s._activeLow }, (pollGetEvent s xs).2) ∧
    pollGetEventStates { s with _activeLow := !s._activeLow } (invertLevels xs)
        = pollGetEventStates s xs := by
  induction xs generalizing s with
  | nil => exact ⟨rfl, rfl⟩
  | cons x xs ih =>
    have hstep := getEvent_flip s x.1 x.2
    have hal := getEvent_activeLow s x.1 x.2
    have ih1 := ih (getEvent s x.1 x.2).1
    rw [hal] at ih1
    simp only [invertLevels, List.map_cons, pollGetEvent, pollGetEventStates, hstep] at ih1 ⊢
    exact ⟨by rw [ih1.1], by rw [ih1.2]⟩

/-- With nothing pending, a `getEvent` call stores its reading of the pin in
`_lastPressed`. -/
theorem getEvent_lastPressed (s : ButtonStateMachine) (hp : s._eventProcessed = true)
    (lv : PinLevel) (t : Nat) :
    (getEvent s lv t).1._lastPressed = currentPressed s._activeLow lv := by
  obtain ⟨pin, L, D, al, st, pt, rt, ev, lp, ep⟩ := s
  simp only at hp
  subst hp
  simp only [getEvent, Bool.not_true, Bool.false_eq_true, if_false]
  split_ifs <;> rfl

theorem currentPressed_iff (al : Bool) (lv : PinLevel) :
    currentPressed al lv = true ↔ (al = true ∧ lv = LOW) ∨ (al = false ∧ lv = HIGH) := by
  cases al <;> cases lv <;> simp [currentPressed]

/-- C18 (polarity symmetry). `getEvent` reads the level as pressed exactly when
`activeLow` holds and the level is `LOW`, or `activeLow` does not hold and the
level is `HIGH`: with nothing pending, the reading a `getEvent` call stores in
`_lastPressed` is pressed exactly in those cases, and the first `getEvent` call
after `init` moves the machine to `PRESS` exactly in those cases. For every
sequence of (level, time) inputs, the instance initialised with
`activeLow = false` and fed the inverted levels returns the same event on every
call, goes through the same values of `_buttonState`, and ends as the instance
initialised with `activeLow = true` does, `_activeLow` apart. -/
theorem polarity_symmetry (self other : ButtonStateMachine) (pin L D : Nat)
    (xs : List (PinLevel × Nat)) :
    (∀ (s : ButtonStateMachine) (lv : PinLevel) (t : Nat), s._eventProcessed = true →
      ((getEvent s lv t).1._lastPressed = true ↔
        (s._activeLow = true ∧ lv = LOW) ∨ (s._activeLow = false ∧ lv = HIGH))) ∧
    (∀ (al : Bool) (lv : PinLevel) (t : Nat),
      (getEvent (init self pin L D al) lv t).1._buttonState = BUTTON_STATE_PRESS ↔
        (al = true ∧ lv = LOW) ∨ (al = false ∧ lv = HIGH)) ∧
    (∀ al lv, currentPressed al lv = true ↔
      (al = true ∧ lv = LOW) ∨ (al = false ∧ lv = HIGH)) ∧
    (pollGetEvent (init other pin L D false) (invertLevels xs)).2
      = (pollGetEvent (init self pin L D true) xs).2 ∧
    pollGetEventStates (init other pin L D false) (invertLevels xs)
      = pollGetEventStates (init self pin L D true) xs ∧
    (pollGetEvent (init other pin L D false) (invertLevels xs)).1
      = { (pollGetEvent (init self pin L D true) xs).1 with _activeLow := false } := by
  have h := pollGetEvent_flip (init self pin L D true) xs
  have e : ({ init self pin L D true with _activeLow := !(init self pin L D true)._activeLow }
      : ButtonStateMachine) = init other pin L D false := rfl
  rw [e] at h
  refine ⟨?_, ?_, currentPressed_iff, ?_, h.2, ?_⟩
  · intro s lv t hp
    rw [getEvent_lastPressed s hp lv t]
    exact currentPressed_iff s._activeLow lv
  · intro al lv t
    cases al <;> cases lv <;> simp [getEvent, getEvent_switch, init, currentPressed]
  · rw [h.1]
  · rw [h.1]
    rfl

/-- C18 on the double press samples 0, 200, 500, 600 with threshold 1000 and
window 400. Active low, `LOW` at 0 is read as pressed and starts `PRESS`, and
`HIGH` is not; active high, `HIGH` is read as pressed and `LOW` is not. The
active-high instance fed the inverted levels returns `NONE`, `NONE`, `NONE`,
`DOUBLE_PRESS` and goes through `PRESS`, `RELEASE`, `DOUBLE_CLICK`, `IDLE`, as
the active-low instance does on the levels themselves. -/
theorem polarity_symmetry_witness :
    (getEvent (init (ButtonStateMachine.new true) 2 1000 400 true) LOW 0).1._lastPressed
      = true ∧
    (getEvent (init (ButtonStateMachine.new true) 2 1000 400 true) LOW 0).1._buttonState
      = BUTTON_STATE_PRESS ∧
    ¬ (getEvent (init (ButtonStateMachine.new true) 2 1000 400 true) HIGH 0).1._buttonState
      = BUTTON_STATE_PRESS ∧
    (getEvent (init (ButtonStateMachine.new true) 2 1000 400 false) HIGH 0).1._buttonState
      = BUTTON_STATE_PRESS ∧
    ¬ (getEvent (init (ButtonStateMachine.new true) 2 1000 400 false) LOW 0).1._buttonState
      = BUTTON_STATE_PRESS ∧
    (pollGetEvent (init (ButtonStateMachine.new false) 2 1000 400 false)
        (invertLevels [(LOW, 0), (HIGH, 200), (LOW, 500), (HIGH, 600)])).2
      = [BUTTON_EVENT_NONE, BUTTON_EVENT_NONE, BUTTON_EVENT_NONE,
          BUTTON_EVENT_DOUBLE_PRESS] ∧
    pollGetEventStates (init (ButtonStateMachine.new false) 2 1000 400 false)
        (invertLevels [(LOW, 0), (HIGH, 200), (LOW, 500), (HIGH, 600)])
      = [BUTTON_STATE_PRESS, BUTTON_STATE_RELEASE, BUTTON_STATE_DOUBLE_CLICK,
          BUTTON_STATE_IDLE] :=
  ⟨((polarity_symmetry (ButtonStateMachine.new true) (ButtonStateMachine.new false)
        2 1000 400 [(LOW, 0), (HIGH, 200), (LOW, 500), (HIGH, 600)]).1
      (init (ButtonStateMachine.new true) 2 1000 400 true) LOW 0 rfl).mpr
      (Or.inl ⟨rfl, rfl⟩),
    ((polarity_symmetry (ButtonStateMachine.new true) (ButtonStateMachine.new false)
        2 1000 400 [(LOW, 0), (HIGH, 200), (LOW, 500), (HIGH, 600)]).2.1
      true LOW 0).mpr (Or.inl ⟨rfl, rfl⟩),
    fun hc => by
      have h := ((polarity_symmetry (ButtonStateMachine.new true)
        (ButtonStateMachine.new false) 2 1000 400
        [(LOW, 0), (HIGH, 200), (LOW, 500), (HIGH, 600)]).2.1 true HIGH 0).mp hc
      revert h
      decide,
    ((polarity_symmetry (ButtonStateMachine.new true) (ButtonStateMachine.new false)
        2 1000 400 [(LOW, 0), (HIGH, 200), (LOW, 500), (HIGH, 600)]).2.1
      false HIGH 0).mpr (Or.inr ⟨rfl, rfl⟩),
    fun hc => by
      have h := ((polarity_symmetry (ButtonStateMachine.new true)
        (ButtonStateMachine.new false) 2 1000 400
        [(LOW, 0), (HIGH, 200), (LOW, 500), (HIGH, 600)]).2.1 false LOW 0).mp hc
      revert h
      decide,
    (polarity_symmetry (ButtonStateMachine.new true) (ButtonStateMachine.new false)
        2 1000 400 [(LOW, 0), (HIGH, 200), (LOW, 500), (HIGH, 600)]).2.2.2.1.trans
      (by decide),
    (polarity_symmetry (ButtonStateMachine.new true) (ButtonStateMachine.new false)
        2 1000 400 [(LOW, 0), (HIGH, 200), (LOW, 500), (HIGH, 600)]).2.2.2.2.1.trans
      (by decide)⟩

/-! ## The polling click detector -/

/-- C19 (`isClicked` debounce). With `st` the statics before the call:
`isClicked` returns true exactly when the unsigned difference
`now - lastChangeTime` is at least 20, `lastState` is pressed and the current
level is released; a call with `now - lastChangeTime < 20` returns false and
leaves both statics unchanged; otherwise, when the current level differs from
`lastState`, `lastState` becomes the current level and `lastChangeTime` becomes
`now`, and when it does not differ both statics are unchanged. -/
theorem isClicked_spec (self : ButtonStateMachine) (st : isClicked_statics)
    (lv : PinLevel) (now : Nat) :
    ((isClicked self st lv now).2 = true ↔
      20 ≤ usub now st.lastChangeTime ∧ st.lastState = true ∧
        currentPressed self._activeLow lv = false) ∧
    (usub now st.lastChangeTime < 20 → isClicked self st lv now = (st, false)) ∧
    (20 ≤ usub now st.lastChangeTime → currentPressed self._activeLow lv ≠ st.lastState →
      (isClicked self st lv now).1
        = { lastState := currentPressed self._activeLow lv, lastChangeTime := now }) ∧
    (20 ≤ usub now st.lastChangeTime → currentPressed self._activeLow lv = st.lastState →
      (isClicked self st lv now).1 = st) := by
  obtain ⟨ls, lct⟩ := st
  simp only
  by_cases hd : usub now lct < 20
  · have hn : ¬ 20 ≤ usub now lct := Nat.not_le.mpr hd
    simp [isClicked, hd, hn]
  · have hn : 20 ≤ usub now lct := Nat.le_of_not_lt hd
    cases ls <;> cases hcp : currentPressed self._activeLow lv <;>
      simp [isClicked, hd, hn, hcp]

/-- C19 from the initial statics `(false, 0)`, active low: the press read at 20 is
recorded, a release read at 39 is ignored (19 ms after the change), and the
release read at 40 returns true. -/
theorem isClicked_spec_witness :
    isClicked (init (ButtonStateMachine.new true) 2 1000 400 true)
        isClicked_statics.initial LOW 20
      = ({ lastState := true, lastChangeTime := 20 }, false) ∧
    isClicked (init (ButtonStateMachine.new true) 2 1000 400 true)
        { lastState := true, lastChangeTime := 20 } HIGH 39
      = ({ lastState := true, lastChangeTime := 20 }, false) ∧
    (isClicked (init (ButtonStateMachine.new true) 2 1000 400 true)
        { lastState := true, lastChangeTime := 20 } HIGH 40).2 = true :=
  ⟨by decide,
    (isClicked_spec (init (ButtonStateMachine.new true) 2 1000 400 true)
      { lastState := true, lastChangeTime := 20 } HIGH 39).2.1 (by decide),
    (isClicked_spec (init (ButtonStateMachine.new true) 2 1000 400 true)
      { lastState := true, lastChangeTime := 20 } HIGH 40).1.mpr
      ⟨by decide, rfl, by decide⟩⟩

end StateForge
